import Mathlib

/-!
Verification of the swagger class generator in
`src/auto-generated/swagger_main.py`.

Modelling conventions, used throughout:
* Python dicts loaded by `json.load` are modelled as association lists in
  insertion order; a loaded document never has duplicate keys.
* A raised exception (`KeyError`, `NameError`, unbounded recursion) is
  modelled by `Option.none`; recursive procedures take a fuel argument and
  return `none` when it runs out, so every definition is executable.
* The script accesses the loaded document through mutable instance state
  (`self.json_data`); the only mutation of that state is
  `resolver_dict["properties"].update(...)` inside
  `simplify_swagger_definition`, which writes into the definitions table.
  This is modelled by passing the definitions table in and out explicitly.
* `details["requestBody"]["content"]["application/json"]["schema"]` chains
  are collapsed: an `Option Schema` field stands for the whole chain, since
  the script only ever reads the schema at its end.
-/

namespace SwaggerMain

/-- The single-quote character, used when assembling emitted Python text. -/
def sqc : String := String.singleton (Char.ofNat 39)

/-- A name wrapped in single quotes, as it appears in emitted Python text. -/
def pyq (s : String) : String := sqc ++ s ++ sqc

/-- The access expression `data.get(<name>)` emitted throughout the script. -/
def dataGet (n : String) : String := "data.get(" ++ pyq n ++ ")"

/-- Python dict assignment `m[k] = v`: replace the value in place when the
key is present (keeping its position), append otherwise. -/
def pySet (m : List (String × α)) (k : String) (v : α) : List (String × α) :=
  if (m.map Prod.fst).contains k then
    m.map (fun p => if p.1 = k then (k, v) else p)
  else m ++ [(k, v)]

/-- Python `m.get(k, d)`. -/
def pyGetD (m : List (String × α)) (k : String) (d : α) : α :=
  (List.lookup k m).getD d

/-- Drop `pre` from the front of `xs` when it is a prefix of it. -/
def dropPre : List Char → List Char → Option (List Char)
  | [], xs => some xs
  | _ :: _, [] => none
  | p :: ps, x :: xs => if p = x then dropPre ps xs else none

/-- Worker for `pySplit`; `fuel` starts at the input length, which suffices
because every step consumes at least one character when `sep` is non-empty. -/
def splitGo (sep : List Char) : Nat → List Char → List Char → List (List Char)
  | 0, xs, cur => [cur.reverse ++ xs]
  | Nat.succ fuel, xs, cur =>
    match xs with
    | [] => [cur.reverse]
    | x :: rest =>
      match dropPre sep xs with
      | some rem => cur.reverse :: splitGo sep fuel rem []
      | none => splitGo sep fuel rest (x :: cur)

/-- Python `s.split(sep)` for a non-empty separator (kernel-reducible
counterpart of `String.splitOn`, which this development avoids because the
position-based library version does not evaluate inside `decide`/`rfl`). -/
def pySplit (s sep : String) : List String :=
  if sep.data.isEmpty then [s]
  else (splitGo sep.data s.data.length s.data []).map String.mk

/-- Python `s.replace(old, new)` (all non-overlapping occurrences, left to
right), for non-empty `old`. -/
def pyReplace (s old new : String) : String :=
  if old.data.isEmpty then s else String.intercalate new (pySplit s old)

/-- Python `s.lower()` (ASCII, which is all the script emits). -/
def pyLower (s : String) : String := String.mk (s.data.map Char.toLower)

/-- Python `s.strip()`. -/
def pyTrim (s : String) : String :=
  String.mk (((s.data.dropWhile Char.isWhitespace).reverse.dropWhile Char.isWhitespace).reverse)

/-- Python `s.startswith(pre)`. -/
def pyStartsWith (s pre : String) : Bool := List.isPrefixOf pre.data s.data

/-- Python `s.endswith(suf)`. -/
def pyEndsWith (s suf : String) : Bool := List.isSuffixOf suf.data s.data

/-- Python `s[n:]`. -/
def pyDrop (s : String) (n : Nat) : String := String.mk (s.data.drop n)

/-- Python substring test `needle in hay` on strings. -/
def pyInStr (needle hay : String) : Bool :=
  needle = "" || (pySplit hay needle).length > 1

/-- Python `str(b)` for a bool, as interpolated into f-strings. -/
def pyBool (b : Bool) : String := if b then "True" else "False"

/-- Python `str.capitalize()`: first character upper-cased, rest lower-cased. -/
def pyCapitalize (s : String) : String :=
  String.mk ((s.data.take 1).map Char.toUpper ++ (s.data.drop 1).map Char.toLower)

/-- A schema node of the loaded swagger document: the keys of the dict that
the script reads.  `ref` is the `"$ref"` key, `type'` the `"type"` key,
`properties`, `items` and `description` the keys of the same name; `required`
is the `"required"` key, with the absent key identified with `[]` because the
script only ever reads it through `.get("required", [])` (line 95). -/
inductive Schema where
  | mk (ref : Option String) (type' : Option String)
      (properties : Option (List (String × Schema)))
      (items : Option Schema) (required : List String)
      (description : Option String)

def Schema.ref : Schema → Option String
  | .mk r _ _ _ _ _ => r

def Schema.type' : Schema → Option String
  | .mk _ t _ _ _ _ => t

def Schema.properties : Schema → Option (List (String × Schema))
  | .mk _ _ p _ _ _ => p

def Schema.items : Schema → Option Schema
  | .mk _ _ _ i _ _ => i

def Schema.required : Schema → List String
  | .mk _ _ _ _ rq _ => rq

def Schema.description : Schema → Option String
  | .mk _ _ _ _ _ d => d

/-- Replace the `properties` entry of a schema node (the effect of mutating
`resolver_dict["properties"]` in place, line 285). -/
def Schema.withProperties : Schema → Option (List (String × Schema)) → Schema
  | .mk r t _ it rq d, ps => .mk r t ps it rq d

/-- A schema node with none of the recognised keys: Python's empty dict
`{}`, which is falsy (`if not items_schema:`, line 601). -/
def Schema.isEmptyDict (s : Schema) : Bool :=
  s.ref.isNone && s.type'.isNone && s.properties.isNone &&
    s.items.isNone && s.required.isEmpty && s.description.isNone

instance : Inhabited Schema := ⟨.mk none none none none [] none⟩

/-- The definitions table of the document `json_data["components"]["schemas"]`. -/
abbrev Defs := List (String × Schema)

/-- Python `reference.split("/")[-1]` (line 384); `str.split` always returns a
non-empty list, so the default is never used. -/
def lastSeg (reference : String) : String :=
  (pySplit reference "/").getLastD ""

/-- Transcribes `DynamicClassGenerator.resolve_reference` (lines 374-386): keep only the
final `/`-separated segment of the reference string and look it up in
`json_data["components"]["schemas"]`; `none` is the `KeyError` raised when
the name is absent. -/
def resolve_reference (defs : Defs) (reference : String) : Option Schema :=
  List.lookup (lastSeg reference) defs

/-- The skeleton built by `simplify_swagger_definition`: a JSON-shaped value
that is a dict, a list, or the kind-name string of a primitive. -/
inductive Skel where
  | obj (fields : List (String × Skel))
  | arr (elems : List Skel)
  | prim (kind : String)

/-- Python `base.update(addition)` on dicts: keys already present are
replaced in place, new keys are appended in order. -/
def pyUpdate (base addition : List (String × Schema)) : List (String × Schema) :=
  addition.foldl (fun b kv => pySet b kv.1 kv.2) base

/-- The body of the loop `for prop_name, prop_schema in
schema["properties"].items()` of `simplify_swagger_definition`
(lines 280-297); `rec` stands for the recursive call
`self.simplify_swagger_definition` with the remaining fuel.  The first
branch performs the in-place merge of lines 284-285: the updated definition
is both written back into the table and the node that is simplified. -/
def simplify_prop_step (rec : Defs → Schema → Option (Skel × Defs))
    (st : List (String × Skel) × Defs) (pr : String × Schema) :
    Option (List (String × Skel) × Defs) :=
  let acc := st.1
  let defs := st.2
  let prop_name := pr.1
  let prop_schema := pr.2
  match prop_schema.ref with
  | some ref => do
      let refName := lastSeg ref
      let d ← List.lookup refName defs
      let dd : Schema × Defs ←
        match prop_schema.properties with
        | some ips => do
            let dps ← d.properties
            let d' := d.withProperties (some (pyUpdate dps ips))
            pure (d', pySet defs refName d')
        | none => pure (d, defs)
      let r ← rec dd.2 dd.1
      pure (pySet acc prop_name r.1, r.2)
  | none =>
    if prop_schema.type'.getD "" = "object" then do
      let r ← rec defs prop_schema
      pure (pySet acc prop_name r.1, r.2)
    else
      match prop_schema.items with
      | some items_schema =>
        if prop_schema.type'.getD "" = "array" then
          match items_schema.ref with
          | some ref => do
              let d ← List.lookup (lastSeg ref) defs
              let r ← rec defs d
              pure (pySet acc prop_name (Skel.arr [r.1]), r.2)
          | none => do
              let r ← rec defs items_schema
              pure (pySet acc prop_name (Skel.arr [r.1]), r.2)
        else
          pure (pySet acc prop_name (Skel.prim (prop_schema.type'.getD "")), defs)
      | none =>
        pure (pySet acc prop_name (Skel.prim (prop_schema.type'.getD "")), defs)

/-- Transcribes `DynamicClassGenerator.simplify_swagger_definition` (lines 267-306),
with the definitions table threaded through explicitly because the `$ref`
branch mutates it: `resolver_dict` (line 283) aliases the entry of
`json_data["components"]["schemas"]`, so
`resolver_dict["properties"].update(...)` (line 285) writes the merged
properties back into the table.  `none` models a raised `KeyError`
(unresolved reference at lines 283/292/302, or a referenced definition
without a `"properties"` key at line 285) or exhausted fuel (the script
recurses unboundedly on cyclic references). -/
def simplify (fuel : Nat) (defs : Defs) (schema : Schema) : Option (Skel × Defs) :=
  match fuel with
  | 0 => none
  | Nat.succ fuel =>
    match schema.properties with
    | some props =>
      (props.foldlM (simplify_prop_step (simplify fuel)) ([], defs)).map
        (fun (st : List (String × Skel) × Defs) => (Skel.obj st.1, st.2))
    | none =>
      match schema.items with
      | some items_schema =>
        if schema.type'.getD "" = "array" then
          match items_schema.ref with
          | some ref => do
              let d ← List.lookup (lastSeg ref) defs
              let r ← simplify fuel defs d
              pure (Skel.arr [r.1], r.2)
          | none => do
              let r ← simplify fuel defs items_schema
              pure (Skel.arr [r.1], r.2)
        else pure (Skel.obj [], defs)
      | none => pure (Skel.obj [], defs)
termination_by structural fuel

/-- Shorthand for a primitive schema node `{"type": k}`. -/
def primS (k : String) : Schema := .mk none (some k) none none [] none

/-- Shorthand for an inline object schema node `{"type":"object","properties":ps}`. -/
def objS (ps : List (String × Schema)) : Schema := .mk none (some "object") (some ps) none [] none

/-- The property names of a named definition in the table (the observation
used to exhibit mutation of the table). -/
def defPropNames (defs : Defs) (name : String) : List String :=
  match List.lookup name defs with
  | some d => (d.properties.getD []).map Prod.fst
  | none => []

/-- Transcribes `generate_parameter` (lines 83-105).  Note that `param_required` is read
from the schema dict *of the property itself* (`param_schema.get("required", [])`,
line 95), and that the two branches of the description test (lines 99-105)
return the same tuple. -/
def generate_parameter (param_name : String) (param_schema : Schema) : String × String :=
  let param_required := param_schema.required.contains param_name
  let param_type := param_schema.type'.getD ""
  let param_description := param_schema.description.getD ""
  let meta_code := "Parameter(name=\"" ++ param_name ++ "\", value=None, required=" ++
    pyBool param_required ++ ", type_=\"" ++ param_type ++ "\")"
  if param_description ≠ "" then (dataGet param_name, meta_code)
  else (dataGet param_name, meta_code)

/-- Transcribes `DynamicClassGenerator.generate_nested_init` (lines 475-493).  Every
value the script stores in an attributes dict is a string, so only the
`isinstance(value, str)` branch is reachable. -/
def generate_nested_init (attributes_dict : List (String × String)) : String :=
  attributes_dict.foldl (fun acc kv => acc ++ "self." ++ kv.1 ++ " = " ++ kv.2 ++ "\n            ") ""

/-- Transcribes `DynamicClassGenerator.get_nested_class_code` (lines 531-558): the
nested-class template. -/
def get_nested_class_code (nested_class_name nested_class_code : String) : String :=
  "\n    class " ++ nested_class_name ++ ":\n\n        def __init__(self, data: dict):\n            \"\"\"Note: Meta attribute variables are prepended with _.\"\"\"\n\n            data = data if data else \x7b\x7d\n            " ++ nested_class_code ++
  "\n        def __repr__(self):\n            return self.__class__.__name__\n\n        def __iter__(self):\n            # This method returns an iterator object\n            # In this case, we" ++ sqc ++ "ll return an iterator over a tuple of attributes\n            for key, value in vars(self).items():\n                yield key, value \n"

/-- The list-transform attribute expression emitted at lines 595-596,
613-614 and 626-627:
`[<pvar>.<name>(<it>) for <it> in data.get("<p>")] if isinstance(data.get("<p>"), list) else []`. -/
def listCompExpr (pvar nested_class_name iter_val prop_name : String) : String :=
  "[" ++ pvar ++ "." ++ nested_class_name ++ "(" ++ iter_val ++ ") for " ++ iter_val ++
  " in " ++ dataGet prop_name ++ "] if isinstance(" ++ dataGet prop_name ++ ", list) else []"

/-- Transcribes `DynamicClassGenerator.parse_properties` (lines 560-642).  The two
mutated dicts `class_attributes` and `nested_classes` are threaded through;
`pvar` is the `prefix_var` argument.  The loop body is transcribed branch by
branch; note that the `"$ref"` test at line 575 is a plain `if`, while the
chain starting at line 586 is a separate `if`/`elif`/`else`, so a property
carrying both `$ref` and `type`/`properties` runs both. `none` models a
raised `KeyError` or exhausted fuel. -/
def parse_properties (fuel : Nat) (defs : Defs) (props : List (String × Schema))
    (class_attributes nested_classes : List (String × String))
    (class_name sfx pvar : String) : Option (List (String × String) × List (String × String)) :=
  match fuel with
  | 0 => none
  | Nat.succ fuel =>
    props.foldlM (fun (st : List (String × String) × List (String × String)) (pr : String × Schema) =>
      let prop_name := pr.1
      let prop_schema := pr.2
      -- lines 575-585: `if "$ref" in prop_schema:`
      (match prop_schema.ref with
       | some ref => do
          let d ← resolve_reference defs ref
          let ps ← d.properties
          let r ← parse_properties fuel defs ps [] st.2 class_name prop_name pvar
          let nc := pySet r.2 prop_name (get_nested_class_code prop_name (generate_nested_init r.1))
          some (pySet st.1 prop_name (prop_name ++ "()"), nc)
       | none => some st) >>= fun st1 =>
      let class_attributes := st1.1
      let nested_classes := st1.2
      -- lines 586-597: `if ... == "object" and "properties" in prop_schema:`
      match prop_schema.properties, prop_schema.type'.getD "" == "object" with
      | some ips, true => do
          let r ← parse_properties fuel defs ips [] nested_classes class_name prop_name pvar
          let nc := pySet r.2 prop_name (get_nested_class_code prop_name (generate_nested_init r.1))
          let ca := pySet class_attributes prop_name (listCompExpr pvar prop_name (prop_name ++ "_") prop_name)
          some (pySet ca (prop_name ++ "_data") (dataGet prop_name), nc)
      | _, _ =>
        -- lines 599-631: `elif ... == "array" and "items" in prop_schema:`
        match prop_schema.items, prop_schema.type'.getD "" == "array" with
        | some items_schema, true =>
          if items_schema.isEmptyDict then
            -- line 601: `if not items_schema:`
            some (pySet class_attributes prop_name (dataGet prop_name), nested_classes)
          else
            match items_schema.ref with
            | some ref => do
                -- lines 603-615
                let d ← resolve_reference defs ref
                let ps ← d.properties
                let r ← parse_properties fuel defs ps [] nested_classes class_name prop_name pvar
                let nc := pySet r.2 prop_name (get_nested_class_code prop_name (generate_nested_init r.1))
                let ca := pySet class_attributes prop_name (listCompExpr pvar prop_name (prop_name ++ "_") prop_name)
                some (pySet ca (prop_name ++ "_data") (dataGet prop_name), nc)
            | none => do
                let t ← items_schema.type'   -- line 617: `items_schema["type"]`
                if t = "object" then do
                  -- lines 618-628
                  let ps ← items_schema.properties
                  let r ← parse_properties fuel defs ps [] nested_classes class_name prop_name pvar
                  let nc := pySet r.2 prop_name (get_nested_class_code prop_name (generate_nested_init r.1))
                  let ca := pySet class_attributes prop_name (listCompExpr pvar prop_name (prop_name ++ "_") prop_name)
                  some (pySet ca (prop_name ++ "_data") (dataGet prop_name), nc)
                else
                  -- lines 629-631
                  some (pySet class_attributes prop_name (generate_parameter prop_name items_schema).1, nested_classes)
        | _, _ =>
          -- lines 633-638: the else branch
          if pyEndsWith (pyGetD class_attributes prop_name "") "()" then
            some (pySet class_attributes prop_name
              (pvar ++ "." ++ prop_name ++ "(" ++ dataGet prop_name ++ ")"), nested_classes)
          else
            some (pySet class_attributes prop_name (generate_parameter prop_name prop_schema).1, nested_classes)
      ) (class_attributes, nested_classes)
termination_by structural fuel

/-- Transcribes `DynamicClassGenerator.itr_properties` (lines 388-415).  Note that the
`"properties" in schema` branch unconditionally reads `schema["items"]` and
`items_schema["$ref"]` after its loop (lines 398-399), and that in the
array-of-inline-object case the element properties are parsed twice
(lines 413 and 415). -/
def itr_properties (fuel : Nat) (defs : Defs) (class_name : String) (schema : Schema)
    (class_attributes nested_classes : List (String × String)) (pvar : String) :
    Option (List (String × String) × List (String × String)) :=
  match schema.properties with
  | some props => do
      let st ← props.foldlM
        (fun (st : List (String × String) × List (String × String)) (pr : String × Schema) =>
          let child_schema := pr.2
          match child_schema.ref with
          | some ref => do
              let d ← resolve_reference defs ref
              let ps ← d.properties
              parse_properties fuel defs ps st.1 st.2 class_name "" pvar
          | none =>
            match child_schema.properties with
            | some cps => parse_properties fuel defs cps st.1 st.2 class_name "" pvar
            | none => some st) (class_attributes, nested_classes)
      let items_schema ← schema.items
      let r ← items_schema.ref
      let d ← resolve_reference defs r
      let ps ← d.properties
      parse_properties fuel defs ps st.1 st.2 class_name "" pvar
  | none => do
      let r ← schema.ref                                  -- line 403
      let _nested_class_name := pyReplace (lastSeg r) "-" "_"
      let d ← resolve_reference defs r
      let ty ← d.type'                                    -- line 407
      match d.items, ty == "array" with
      | some items_schema, true =>
          match items_schema.ref with
          | some r2 => do
              let d2 ← resolve_reference defs r2
              let ps ← d2.properties
              parse_properties fuel defs ps class_attributes nested_classes class_name "" pvar
          | none => do
              let ps ← items_schema.properties
              let st ← parse_properties fuel defs ps class_attributes nested_classes class_name "" pvar
              parse_properties fuel defs ps st.1 st.2 class_name "" pvar
      | _, _ => do
          let ps ← d.properties
          parse_properties fuel defs ps class_attributes nested_classes class_name "" pvar

/-- The module-level `generate_class_code` (lines 133-195): the emitted
request/parameter module template. -/
def generate_class_code (file_name attributes_text nested_classes_text end_point
    nested_class_param_text parameter_text ms_suffix : String) : String :=
  let parameter_text := if parameter_text = "" then "pass" else parameter_text
  let attributes_text := if attributes_text = "" then "pass" else attributes_text
  let t := "\"\"\"An auto-generated module for " ++ end_point ++
    " endpoint,which helps us to get its parameters and \nrequest body attributes as python objects.\n\"\"\"\nfrom typing import Union\n"
  let t := if pyTrim nested_classes_text ≠ "" then
      t ++ "\nclass RequestNestedAttributes:\n    " ++ nested_classes_text ++ "\n"
    else t
  t ++ "\nclass RequestBody:\n    def __init__(self, data: dict):\n        \"\"\"Request body object attributes.\"\"\"\n        \"\"\"Note: Meta attribute variables are prepended with _.\"\"\"\n        " ++
    attributes_text ++ "\n    " ++ nested_class_param_text ++
    "\nclass ParameterObject:\n    def __init__(self, data: dict):\n        \"\"\"Parameter object attributes.\"\"\"\n        \"\"\"Note: Meta attribute variables are prepended with _.\"\"\"\n        " ++
    parameter_text ++ "\n        \nclass RequestObject_" ++ ms_suffix ++
    ":\n    def __init__(self, data: dict):\n        \"\"\"Request object attributes\"\"\"\n        self.body = " ++
    dataGet "body" ++ "\n        self.params = " ++ dataGet "params" ++
    "\n\n    def get_" ++ file_name ++ "_request_body(self):\n        return RequestBody(self.body)\n\n    def get_" ++
    file_name ++ "_parameter(self):\n        return ParameterObject(self.params)\n"

/-- The module-level `generate_response_class_code` (lines 107-131): the
emitted response-class template. -/
def generate_response_class_code (nested_class_response_text response_attributes_text ms_suffix : String) : String :=
  let t := if pyTrim nested_class_response_text ≠ "" then
      "\nclass ResponseNestedAttributes:\n    " ++ nested_class_response_text ++ "\n"
    else ""
  t ++ "\nclass ResponseObject_" ++ ms_suffix ++
    ":\n\n    def __init__(self, data: Union[dict, list]):\n        \"\"\"Response object attributes\"\"\"\n        if isinstance(data, dict):\n            self._set_value(data)\n        elif isinstance(data, list):\n            self._handle_list_response(data)\n    \n    def _set_value(self, data: dict):\n        \"\"\"set values for attributes from a dictionary\"\"\"\n        " ++
    response_attributes_text ++
    "\n    def _handle_list_response(self, data_list: dict):\n        self.instances = [ResponseObject_" ++
    ms_suffix ++ "(item) for item in data_list]\n    "

/-- The `attributes_text` accumulation of
`DynamicClassGenerator.generate_class_code` (lines 427-429) and
`generate_response_class_code` (lines 448-450). -/
def attrs_text_of (class_attributes : List (String × String)) : String :=
  class_attributes.foldl (fun acc kv => acc ++ "self." ++ kv.1 ++ " = " ++ kv.2 ++ "\n        ") ""

/-- The `nested_classes_text` accumulation (lines 431-433 and 452-454). -/
def nested_text_of (nested_classes : List (String × String)) : String :=
  nested_classes.foldl (fun acc kv => acc ++ "\n" ++ kv.2) ""

/-- Transcribes `DynamicClassGenerator.generate_class_code` (lines 417-440); `ms_suffix`
is `json_data.get("info", {}).get("suffix", "MS")` and `end_point` the
`self.end_point` set by the caller.  Renamed with a `dcg_` marker because
Lean resolves the unqualified module-level name differently than Python. -/
def dcg_generate_class_code (fuel : Nat) (defs : Defs) (ms_suffix end_point class_name file_name : String)
    (schema : Schema) (nested_class_param_text parameter_str : String) : Option String := do
  let st ← itr_properties fuel defs class_name schema [] [] "RequestNestedAttributes"
  pure (generate_class_code file_name (attrs_text_of st.1) (nested_text_of st.2) end_point
    nested_class_param_text parameter_str ms_suffix)

/-- Transcribes `DynamicClassGenerator.generate_response_class_code` (lines 442-457). -/
def dcg_generate_response_class_code (fuel : Nat) (defs : Defs) (ms_suffix class_name : String)
    (schema : Schema) : Option String := do
  let st ← itr_properties fuel defs class_name schema [] [] "ResponseNestedAttributes"
  pure (generate_response_class_code (nested_text_of st.2) (attrs_text_of st.1) ms_suffix)

/-- One entry of the `parameters` list of an operation: the keys the script
reads.  `inLoc` is the `"in"` key; `required` is `param.get("required",
False)` (line 228); `schema` is the `"schema"` key, itself a dict whose
`"type"` key is read by subscript (line 229). -/
structure Param where
  name : String
  inLoc : String
  required : Bool
  schema : Option (Option String)

/-- Transcribes `DynamicClassGenerator.parse_parameters` (lines 221-231): builds the
attribute lines of a (nested) parameter class.  `none` models the
`KeyError` raised when a parameter has no `"schema"` dict or its schema has
no `"type"` key; the values bound to `required`, `param_type` and `value`
are never used. -/
def parse_parameters (parameters : List Param) : Option (List String) :=
  parameters.foldlM (fun acc p => do
    let name_str := p.name
    let name := pyReplace p.name "-" "_"
    let _required := p.required
    let psch ← p.schema
    let _param_type ← psch
    pure (acc ++ ["self." ++ name ++ " = " ++ dataGet name_str])) []

/-- Transcribes `DynamicClassGenerator.nested_param_class_list` (lines 459-473): the
`classes_list` after the fill — the distinct non-`query` locations in first
occurrence order. -/
def nested_param_class_list (parameters : List Param) : List String :=
  parameters.foldl (fun cl p =>
    if !cl.contains p.inLoc && p.inLoc != "query" then cl ++ [p.inLoc] else cl) []

/-- The per-location class template of `get_nested_param_class_code`
(lines 518-527). -/
def nested_param_class_template (nested_class_name attributes_text : String) : String :=
  "\nclass " ++ nested_class_name ++
  ":\n\n    def __init__(self, data: dict):\n        \"\"\"Note: Meta attribute variables are prepended with _.\"\"\"\n\n        " ++
  attributes_text ++ "\n\n    def __repr__(self):\n        return self.__class__.__name__\n"

/-- The filter of line 513: `if class_name in param["in"]` — note this is a
*substring* test, not equality. -/
def params_for_class (class_name : String) (parameters : List Param) : List Param :=
  parameters.filter (fun p => pyInStr class_name p.inLoc)

/-- Transcribes `DynamicClassGenerator.get_nested_param_class_code` (lines 495-529);
returns the rendered per-location classes and the filled `classes_list`
(the caller passes the list in empty and reads it back mutated). -/
def get_nested_param_class_code (parameters : List Param) : Option (String × List String) := do
  let classes_list := nested_param_class_list parameters
  let text ← classes_list.foldlM (fun acc class_name => do
      let parameters_list := params_for_class class_name parameters
      let attributes ← parse_parameters parameters_list
      pure (acc ++ nested_param_class_template class_name
        (String.intercalate "\n        " attributes) ++ "\n")) ""
  pure (text, classes_list)

/-- Transcribes `DynamicClassGenerator.get_parameter_module` (lines 211-219): the
top-level parameter attributes.  The loop over `parameters` that flattens
`query` parameters is nested *inside* the loop over `classes_list`, exactly
as in the source. -/
def get_parameter_module_attrs (classes_list : List String) (parameters : List Param) : List String :=
  classes_list.foldl (fun attributes attr_name =>
    let attributes := attributes ++
      ["self." ++ attr_name ++ " = " ++ attr_name ++ "(" ++ dataGet attr_name ++ ")"]
    parameters.foldl (fun a p =>
      if p.inLoc = "query" then a ++ ["self." ++ p.name ++ " = " ++ dataGet p.name] else a)
      attributes) []

/-- Transcribes `DynamicClassGenerator.generate_parameter_module` (lines 233-265),
returning the module text the method writes to `<file_name>.py`. -/
def generate_parameter_module (fuel : Nat) (defs : Defs)
    (nested_class_param_text attributes_param_text file_name class_name end_point : String)
    (response : Schema) (ms_suffix : String) : Option String := do
  let apt := if attributes_param_text = "" then "pass" else attributes_param_text
  let respCode ← dcg_generate_response_class_code fuel defs ms_suffix class_name response
  pure ("\"\"\"An automated module for " ++ end_point ++
    " endpoint,\nwhich helps us to get its parameters as \npython objects.\n\"\"\"\nfrom typing import Union\n\n" ++
    nested_class_param_text ++
    "\nclass ParameterObject:\n\n    def __init__(self, data: dict):\n        \"\"\"Parameter object attributes.\n        Note: Meta attribute variables are prepended with _.\"\"\"\n        " ++
    apt ++
    "\n\n    def __repr__(self):\n        return \"\\n\".join([str(attr) for attr in self.__dict__.values()])\n\n\nclass RequestObject_" ++
    ms_suffix ++
    ":\n    def __init__(self, data: dict):\n        \"\"\"Request object attributes\"\"\"\n        self.body = " ++
    dataGet "body" ++ "\n        self.params = " ++ dataGet "params" ++
    "\n\n    def get_" ++ file_name ++
    "_parameter(self):\n        return ParameterObject(self.params)\n" ++ respCode ++ "\n")

/-- The `file_name` derivation of `generate_classes` (lines 315-319):
brace-stripped, dash-rewritten path segments joined by `_`, the method
appended when the path declares several methods, then lower-cased. -/
def file_name_of (path method : String) (multi : Bool) : String :=
  let base := String.intercalate "_" ((pySplit (pyDrop path 1) "/").map
    (fun v => pyReplace (pyReplace (pyReplace v "\x7b" "") "\x7d" "") "-" "_"))
  pyLower (if multi then base ++ "_" ++ method else base)

/-- Transcribes `DynamicClassGenerator.generate_class_name` (lines 365-372). -/
def generate_class_name (file_name : String) : String :=
  String.intercalate "" ((pySplit file_name "_").map pyCapitalize)

/-- One operation entry (`details`) of the paths table.  `requestBody` and
each responses entry stand for the whole
`[...]["content"]["application/json"]["schema"]` chain (see the module
comment); the inner `Option` of a responses entry is the presence of the
`"schema"` key. -/
structure Operation where
  parameters : Option (List Param)
  requestBody : Option Schema
  responses : Option (List (String × Option Schema))

/-- The loaded swagger document: its paths table, its
`components.schemas` definitions table and `info.suffix`. -/
structure Document where
  paths : List (String × List (String × Operation))
  schemas : Defs
  infoSuffix : Option String

/-- The state `generate_classes` carries across its loop: the (mutable)
definitions table, the leaked loop variable `response` (bound only at
line 361, read again by later iterations at line 363), and the units
written out so far as (file name, module text) pairs. -/
structure GenState where
  defs : Defs
  responseVar : Option Schema
  units : List (String × String)

/-- Lines 320-337 of `generate_classes`: the per-operation preprocessing
before the branch — the `responses` block (322-331), whose
`simplify_swagger_definition` call both computes the (discarded)
`response_template` and mutates the definitions table, and the `parameters`
block (332-337) producing `nested_class_param_text` and `parameter_text`. -/
def preOp (fuel : Nat) (st : GenState) (op : Operation) : Option (GenState × String × String) := do
  let st ← match op.responses with
    | none => some st
    | some rs => do
        let response_content ← List.lookup "200" rs
        let schema ←
          match response_content with
          | some s =>
              if s.ref.isNone then some s
              else do
                let r ← s.ref
                resolve_reference st.defs r
          | none => none
        let r ← simplify fuel st.defs schema
        some { st with defs := r.2 }
  let pt ← match op.parameters with
    | none => some ("", "")
    | some parameters => do
        let r ← get_nested_param_class_code parameters
        let attributes := get_parameter_module_attrs r.2 parameters
        some (r.1, String.intercalate "\n        " attributes)
  some (st, pt.1, pt.2)

/-- Lines 338-363 of `generate_classes`: the four-way dispatch.  A written
file is modelled by appending a (file name, text) unit. -/
def branchOp (fuel : Nat) (ms_suffix : String) (st : GenState)
    (path method file_name class_name : String) (op : Operation)
    (nested_class_param_text parameter_text : String) : Option GenState :=
  match op.requestBody, op.responses with
  | some request_body, some rs => do
      let class_code ← dcg_generate_class_code fuel st.defs ms_suffix path class_name
        file_name request_body nested_class_param_text parameter_text
      let rc ← List.lookup "200" rs
      let schema ← rc
      let class_response_code ← dcg_generate_response_class_code fuel st.defs ms_suffix class_name schema
      some { st with units := st.units ++ [(file_name, class_code ++ class_response_code)] }
  | some request_body, none => do
      let class_code ← dcg_generate_class_code fuel st.defs ms_suffix path class_name
        file_name request_body nested_class_param_text parameter_text
      some { st with units := st.units ++ [(file_name, class_code)] }
  | none, rsOpt =>
      if method = "get" then do
        let response ←
          match rsOpt with
          | some rs => do
              let rc ← List.lookup "200" rs
              rc
          | none => st.responseVar
        let content ← generate_parameter_module fuel st.defs nested_class_param_text
          parameter_text file_name class_name path response ms_suffix
        some { st with responseVar := some response,
                       units := st.units ++ [(file_name, content)] }
      else some st

/-- One iteration of the double loop of `generate_classes`
(lines 313-363) for a single (path, method, details) entry; `multi` is
`len(methods.keys()) > 1`. -/
def processOp (fuel : Nat) (ms_suffix : String) (st : GenState)
    (path method : String) (multi : Bool) (op : Operation) : Option GenState := do
  let file_name := file_name_of path method multi
  let class_name := generate_class_name file_name
  let r ← preOp fuel st op
  branchOp fuel ms_suffix r.1 path method file_name class_name op r.2.1 r.2.2

/-- The loop of `generate_classes` over all operations: an unhandled
exception (`none` from `processOp`) aborts the whole loop; the returned
flag records whether it aborted, and the state keeps the units written
before the abort. -/
def processOps (fuel : Nat) (ms_suffix : String) :
    GenState → List (String × String × Bool × Operation) → GenState × Bool
  | st, [] => (st, false)
  | st, o :: rest =>
    match processOp fuel ms_suffix st o.1 o.2.1 o.2.2.1 o.2.2.2 with
    | none => (st, true)
    | some st' => processOps fuel ms_suffix st' rest

/-- The iteration order of `generate_classes`: every (path, method) pair in
document order, with the sibling-method flag. -/
def opList (paths : List (String × List (String × Operation))) :
    List (String × String × Bool × Operation) :=
  paths.flatMap (fun pm => pm.2.map (fun md => (pm.1, md.1, decide (1 < pm.2.length), md.2)))

/-- Transcribes `DynamicClassGenerator.generate_classes` (lines 308-363) run on a
loaded document. -/
def generate_classes (fuel : Nat) (doc : Document) : GenState × Bool :=
  processOps fuel (doc.infoSuffix.getD "MS")
    { defs := doc.schemas, responseVar := none, units := [] } (opList doc.paths)

/-- The round-trip parse posited by the emission-losslessness property: the
names of the `self.<name> = <value>` lines of an emitted initializer block,
recovered by splitting on the separator `attrs_text_of` itself inserts. -/
def extract_attr_names (text : String) : List String :=
  (pySplit text "\n        ").filterMap (fun line =>
    if pyStartsWith line "self." then some ((pySplit (pyDrop line 5) " = ").headD "")
    else none)

/-- A runtime Python/JSON value, used to give meaning to the emitted
access expressions. -/
inductive PyVal where
  | none_
  | str (s : String)
  | int (n : Int)
  | bool (b : Bool)
  | list (elems : List PyVal)
  | dict (fields : List (String × PyVal))

/-- Python `data.get(k)` on a runtime value (`None` when the key is absent). -/
def PyVal.get : PyVal → String → PyVal
  | .dict fields, k => (List.lookup k fields).getD .none_
  | _, _ => .none_

/-- Python `isinstance(x, list)`. -/
def PyVal.isList : PyVal → Bool
  | .list _ => true
  | _ => false

/-- The meaning of the emitted list-transform expression `listCompExpr`
(lines 613-614):
`[<C>(v) for v in data.get(k)] if isinstance(data.get(k), list) else []`,
with `ctor` the constructor of the emitted nested class. -/
def listTransformSem (ctor : PyVal → α) (data : PyVal) (k : String) : List α :=
  match data.get k with
  | .list xs => xs.map ctor
  | _ => []

/-! ## Helper lemmas -/

lemma pySet_keys (m : List (String × α)) (k : String) (v : α) :
    (pySet m k v).map Prod.fst =
      if (m.map Prod.fst).contains k then m.map Prod.fst else m.map Prod.fst ++ [k] := by
  unfold pySet
  by_cases h : ((m.map Prod.fst).contains k : Bool) = true
  · simp only [h, if_true, List.map_map]
    apply List.map_congr_left
    intro p _
    by_cases hp : p.1 = k
    · simp [Function.comp_def, hp]
    · simp [Function.comp_def, hp]
  · simp only [h, if_false, Bool.false_eq_true, List.map_append, List.map_cons, List.map_nil]

/-- The key list produced by repeated Python dict assignment, starting from
key list `ks`. -/
def pyKeysAfter (ks : List String) (names : List String) : List String :=
  names.foldl (fun ks k => if ks.contains k then ks else ks ++ [k]) ks

/-- Every branch of the per-property loop body of `simplify` assigns
`result[prop_name]`, so a successful step is a `pySet` at the name of the property. -/
lemma simplify_prop_step_shape (rec : Defs → Schema → Option (Skel × Defs))
    (acc : List (String × Skel)) (defs : Defs) (pr : String × Schema)
    (out : List (String × Skel) × Defs)
    (h : simplify_prop_step rec (acc, defs) pr = some out) :
    ∃ v defs', out = (pySet acc pr.1 v, defs') := by
  simp only [simplify_prop_step] at h
  repeat' split at h
  all_goals first
    | exact Option.noConfusion h
    | (simp only [bind, Option.bind_eq_some, Option.pure_def, Option.some.injEq] at h
       aesop)

/-- Running the property loop of `simplify` accumulates exactly the
property names (via Python dict assignment) on top of the accumulator. -/
lemma simplify_fold_keys (rec : Defs → Schema → Option (Skel × Defs)) :
    ∀ (props : List (String × Schema)) (acc : List (String × Skel)) (defs : Defs)
      (out : List (String × Skel) × Defs),
      props.foldlM (simplify_prop_step rec) (acc, defs) = some out →
      out.1.map Prod.fst = pyKeysAfter (acc.map Prod.fst) (props.map Prod.fst)
  | [], acc, defs, out, h => by
      simp only [List.foldlM_nil, Option.pure_def, Option.some.injEq] at h
      simp [← h, pyKeysAfter]
  | pr :: rest, acc, defs, out, h => by
      rw [List.foldlM_cons] at h
      cases hstep : simplify_prop_step rec (acc, defs) pr with
      | none => rw [hstep] at h; simp at h
      | some st' =>
        rw [hstep] at h
        simp only [bind, Option.some_bind] at h
        obtain ⟨v, defs', rfl⟩ := simplify_prop_step_shape rec acc defs pr st' hstep
        have ih := simplify_fold_keys rec rest (pySet acc pr.1 v) defs' out h
        rw [ih, pySet_keys]
        simp only [pyKeysAfter, List.map_cons, List.foldl_cons]

/-! ## Claims -/

/-- C1: the claim that the compiler never mutates the source document is
violated by the code: running `simplify_swagger_definition` on an object
whose property `p` carries both `$ref: #/components/schemas/A` and an
inline `properties: {y: integer}` changes the definition of `A` stored in
the definitions table of the document — the property names of `A` are `["x"]` before
the call and `["x", "y"]` after it, because line 285 updates the resolved
definition (an alias into the table) in place. -/
theorem C1_simplify_mutates_definitions :
    (simplify 5 [("A", objS [("x", primS "string")])]
        (objS [("p", Schema.mk (some "#/components/schemas/A") none
          (some [("y", primS "integer")]) none [] none)])).map
        (fun r => defPropNames r.2 "A") = some ["x", "y"] ∧
    defPropNames [("A", objS [("x", primS "string")])] "A" = ["x"] :=
  ⟨rfl, rfl⟩

/-- C9 counterexample: a primitive schema given as the *top-level* input of
the Response Skeleton Builder does not reduce to its kind-name string — the
function initialises `result = {}` and falls through both the `properties`
and the `array` branch, returning the empty dict. -/
theorem C9_counterexample :
    simplify 2 [] (primS "integer") = some (Skel.obj [], []) ∧
    Skel.obj [] ≠ Skel.prim "integer" :=
  ⟨rfl, fun h => Skel.noConfusion h⟩

/-- C9 (amended): an object schema (one with a `properties` key) reduces to
a mapping whose keys are exactly its property names; an array schema
reduces to a one-element list holding the simplified item shape; a
primitive schema *occurring as a property* reduces to its declared kind
name (with defaulted empty string); but a primitive schema as the
*top-level* input reduces to the empty mapping, not a kind string. -/
theorem C9_amended :
    (∀ (fuel : Nat) (defs : Defs) (s : Schema) (ps : List (String × Schema))
        (out : Skel × Defs), s.properties = some ps →
        simplify (fuel + 1) defs s = some out →
        ∃ l, out.1 = Skel.obj l ∧ l.map Prod.fst = pyKeysAfter [] (ps.map Prod.fst)) ∧
    (∀ (fuel : Nat) (defs : Defs) (s : Schema) (it : Schema) (out : Skel × Defs),
        s.properties = none → s.items = some it → s.type'.getD "" = "array" →
        simplify (fuel + 1) defs s = some out →
        ∃ c, out.1 = Skel.arr [c]) ∧
    (∀ (fuel : Nat) (defs : Defs) (s : Schema) (n : String) (p : Schema),
        s.properties = some [(n, p)] → p.ref = none →
        p.type'.getD "" ≠ "object" →
        (p.items = none ∨ p.type'.getD "" ≠ "array") →
        simplify (fuel + 1) defs s =
          some (Skel.obj [(n, Skel.prim (p.type'.getD ""))], defs)) ∧
    (∀ (fuel : Nat) (defs : Defs) (s : Schema),
        s.properties = none → (s.items = none ∨ s.type'.getD "" ≠ "array") →
        simplify (fuel + 1) defs s = some (Skel.obj [], defs)) := by
  refine ⟨?_, ?_, ?_, ?_⟩
  · intro fuel defs s ps out hps h
    cases s with
    | mk r t p it rq dsc =>
      simp only [Schema.properties] at hps
      subst hps
      have h2 : (List.foldlM (simplify_prop_step (simplify fuel)) ([], defs) ps).map
          (fun (st : List (String × Skel) × Defs) => (Skel.obj st.1, st.2)) = some out := h
      cases hfold : List.foldlM (simplify_prop_step (simplify fuel)) ([], defs) ps with
      | none => rw [hfold] at h2; exact Option.noConfusion h2
      | some st =>
        rw [hfold] at h2
        simp only [Option.map_some', Option.some.injEq] at h2
        refine ⟨st.1, ?_, simplify_fold_keys (simplify fuel) ps [] defs st hfold⟩
        rw [← h2]
  · intro fuel defs s it out hps hit harr h
    unfold simplify at h
    rw [hps] at h
    dsimp only at h
    rw [hit] at h
    dsimp only at h
    rw [if_pos harr] at h
    split at h <;>
      simp only [bind, Option.bind_eq_some, Option.pure_def, Option.some.injEq] at h
    · obtain ⟨d, -, r', -, h⟩ := h
      exact ⟨r'.1, by rw [← h]⟩
    · obtain ⟨r', -, h⟩ := h
      exact ⟨r'.1, by rw [← h]⟩
  · intro fuel defs s n p hps href hobj hitems
    unfold simplify
    rw [hps]
    dsimp only
    rw [List.foldlM_cons]
    have hstep : simplify_prop_step (simplify fuel) ([], defs) (n, p) =
        some (pySet [] n (Skel.prim (p.type'.getD "")), defs) := by
      simp only [simplify_prop_step]
      rw [href]
      dsimp only
      rw [if_neg hobj]
      rcases hitems with hit | harr
      · rw [hit]
        rfl
      · cases hit : p.items with
        | none => rfl
        | some it2 =>
          dsimp only
          rw [if_neg harr]
          rfl
    rw [hstep]
    simp only [bind, Option.some_bind, List.foldlM_nil, Option.pure_def, Option.map_some',
      Option.some.injEq]
    simp [pySet]
  · intro fuel defs s hps hitems
    unfold simplify
    rw [hps]
    dsimp only
    rcases hitems with hit | harr
    · rw [hit]
      rfl
    · cases hit : s.items with
      | none => rfl
      | some it2 =>
        dsimp only
        rw [if_neg harr]
        rfl

/-- C9 witness: the amended statement instantiated on the very examples of the spec. -/
theorem C9_amended_witness :
    (∃ l, (Skel.obj [("total", Skel.prim "integer")]) = Skel.obj l ∧
        l.map Prod.fst = pyKeysAfter [] ["total"]) ∧
    (∃ c, (Skel.arr [Skel.obj [("id", Skel.prim "string")]]) = Skel.arr [c]) ∧
    simplify 2 [] (objS [("total", primS "integer")]) =
      some (Skel.obj [("total", Skel.prim "integer")], []) ∧
    simplify 1 [] (primS "integer") = some (Skel.obj [], []) := by
  refine ⟨?_, ?_, ?_, ?_⟩
  · exact (C9_amended.1 1 [] (objS [("total", primS "integer")])
      [("total", primS "integer")] (Skel.obj [("total", Skel.prim "integer")], []) rfl rfl)
  · exact (C9_amended.2.1 1 [("Item", objS [("id", primS "string")])]
      (Schema.mk none (some "array") none
        (some (Schema.mk (some "#/definitions/Item") none none none [] none)) [] none)
      (Schema.mk (some "#/definitions/Item") none none none [] none)
      (Skel.arr [Skel.obj [("id", Skel.prim "string")]], [("Item", objS [("id", primS "string")])])
      rfl rfl rfl rfl)
  · exact (C9_amended.2.2.1 1 [] (objS [("total", primS "integer")]) "total"
      (primS "integer") rfl rfl (by decide) (Or.inl rfl))
  · exact (C9_amended.2.2.2 0 [] (primS "integer") rfl (Or.inl rfl))

/-- Preprocessing an operation (the responses/parameters blocks before the
dispatch) never writes a unit and never rebinds the leaked `response`
variable: only the definitions table can change (through the in-place merge of `simplify`). -/
lemma preOp_state (fuel : Nat) (st : GenState) (op : Operation)
    (out : GenState × String × String) (h : preOp fuel st op = some out) :
    out.1.units = st.units ∧ out.1.responseVar = st.responseVar := by
  unfold preOp at h
  cases hre : op.responses with
  | none =>
    rw [hre] at h
    dsimp only at h
    cases hpa : op.parameters with
    | none =>
      rw [hpa] at h
      simp only [bind, Option.some_bind, Option.some.injEq] at h
      rw [← h]
      exact ⟨rfl, rfl⟩
    | some ps =>
      rw [hpa] at h
      simp only [bind, Option.some_bind, Option.bind_eq_some, Option.some.injEq] at h
      obtain ⟨a, -, h⟩ := h
      rw [← h]
      exact ⟨rfl, rfl⟩
  | some rs =>
    rw [hre] at h
    dsimp only at h
    simp only [bind, Option.bind_eq_some, Option.some.injEq] at h
    obtain ⟨rc, -, h⟩ := h
    cases rc with
    | none => simp at h
    | some s =>
      dsimp only at h
      split at h <;>
        simp only [bind, Option.bind_eq_some, Option.some_bind, Option.some.injEq] at h
      · obtain ⟨r, -, h⟩ := h
        cases hpa : op.parameters with
        | none =>
          rw [hpa] at h
          simp only [Option.some.injEq] at h
          rw [← h]
          exact ⟨rfl, rfl⟩
        | some ps =>
          rw [hpa] at h
          simp only [bind, Option.some_bind, Option.bind_eq_some, Option.some.injEq] at h
          obtain ⟨a, -, h⟩ := h
          rw [← h]
          exact ⟨rfl, rfl⟩
      · obtain ⟨ref, -, d, -, r, -, h⟩ := h
        cases hpa : op.parameters with
        | none =>
          rw [hpa] at h
          simp only [Option.some.injEq] at h
          rw [← h]
          exact ⟨rfl, rfl⟩
        | some ps =>
          rw [hpa] at h
          simp only [bind, Option.some_bind, Option.bind_eq_some, Option.some.injEq] at h
          obtain ⟨a, -, h⟩ := h
          rw [← h]
          exact ⟨rfl, rfl⟩

/-- C2 counterexample inputs: `/a` is an operation whose `responses` map
has no `"200"` entry (the `KeyError` of line 323); `/b` is a well-formed
request-only operation. -/
def c2Defs : Defs :=
  [("Body", Schema.mk none (some "object") (some [("x", primS "string")]) none [] none)]

def c2RefBody : Schema := Schema.mk (some "#/components/schemas/Body") none none none [] none

def c2OpBad : Operation := ⟨none, some c2RefBody, some []⟩

def c2OpGood : Operation := ⟨none, some c2RefBody, none⟩

def c2DocBad : Document :=
  ⟨[("/a", [("post", c2OpBad)]), ("/b", [("post", c2OpGood)])], c2Defs, none⟩

def c2DocGood : Document := ⟨[("/b", [("post", c2OpGood)])], c2Defs, none⟩

def c2InitState : GenState := ⟨c2Defs, none, []⟩

def c2BadEntry : String × String × Bool × Operation := ("/a", "post", false, c2OpBad)

def c2GoodEntry : String × String × Bool × Operation := ("/b", "post", false, c2OpGood)

/-- C2 counterexample: one malformed operation (responses without a
`"200"` entry) aborts the *whole* run — the later well-formed operation
`/b` produces no unit, although the same operation alone produces one.
`generate_classes` has no exception handling, so the claim that failures
are scoped per-operation fails on the code. -/
theorem C2_counterexample :
    (generate_classes 20 c2DocBad).1.units = [] ∧
    (generate_classes 20 c2DocBad).2 = true ∧
    (generate_classes 20 c2DocGood).1.units.map Prod.fst = ["b"] ∧
    (generate_classes 20 c2DocGood).2 = false :=
  ⟨rfl, rfl, rfl, rfl⟩

/-- C2 (amended): a failure while building one operation aborts the whole
generation loop at that operation: the units already written for the
operations before it are kept, and no unit is produced for any operation
after it (well-formed or not). -/
theorem C2_amended (fuel : Nat) (ms : String)
    (xs ys : List (String × String × Bool × Operation))
    (bad : String × String × Bool × Operation) (st st' : GenState)
    (h1 : processOps fuel ms st xs = (st', false))
    (h2 : processOp fuel ms st' bad.1 bad.2.1 bad.2.2.1 bad.2.2.2 = none) :
    processOps fuel ms st (xs ++ bad :: ys) = (st', true) := by
  induction xs generalizing st with
  | nil =>
    simp only [processOps, Prod.mk.injEq] at h1
    obtain ⟨rfl, -⟩ := h1
    simp only [List.nil_append, processOps]
    rw [h2]
  | cons o rest ih =>
    simp only [processOps] at h1
    cases hop : processOp fuel ms st o.1 o.2.1 o.2.2.1 o.2.2.2 with
    | none =>
      rw [hop] at h1
      dsimp only at h1
      simp only [Prod.mk.injEq] at h1
      exact absurd h1.2 (by simp)
    | some st2 =>
      rw [hop] at h1
      dsimp only at h1
      simp only [List.cons_append, processOps]
      rw [hop]
      exact ih st2 h1
/-- C2 witness: the amended statement applied with no preceding
operations, the malformed `/a` first and the well-formed `/b` after it. -/
theorem C2_amended_witness :
    processOps 20 "MS" c2InitState ([] ++ c2BadEntry :: [c2GoodEntry]) = (c2InitState, true) :=
  C2_amended 20 "MS" [] [c2GoodEntry] c2BadEntry c2InitState c2InitState rfl rfl

/-- C3 counterexample inputs: a GET operation with a 200 response but *no*
parameters and no request body. -/
def c3Defs : Defs :=
  [("Body", Schema.mk none (some "object") (some [("x", primS "string")]) none [] none),
   ("R", objS [("total", primS "integer")])]

def c3RefR : Schema := Schema.mk (some "#/components/schemas/R") none none none [] none

def c3RefBody : Schema := Schema.mk (some "#/components/schemas/Body") none none none [] none

def c3OpGet : Operation := ⟨none, none, some [("200", some c3RefR)]⟩

def c3DocGet : Document := ⟨[("/orders", [("get", c3OpGet)])], c3Defs, none⟩

def c3St : GenState := ⟨c3Defs, none, []⟩

def c3OpBoth : Operation := ⟨none, some c3RefBody, some [("200", some c3RefR)]⟩

def c3OpReqOnly : Operation := ⟨none, some c3RefBody, none⟩

def c3OpDel : Operation := ⟨none, none, some [("200", some c3RefR)]⟩

/-- C3 counterexample: a GET operation with no requestBody and *no
parameters* still gets a unit emitted (the fourth outcome of the claim says no
unit should be emitted for it) — line 358 tests only the method and the
absence of a request body, never the presence of parameters. -/
theorem C3_counterexample :
    c3OpGet.parameters = none ∧
    c3OpGet.requestBody = none ∧
    (generate_classes 20 c3DocGet).1.units.map Prod.fst = ["orders"] ∧
    (generate_classes 20 c3DocGet).2 = false :=
  ⟨rfl, rfl, rfl, rfl⟩

/-- C3 (amended): for an operation processed without raising, exactly one
of four outcomes occurs: requestBody and responses present → one combined
unit is appended; requestBody only → one request-only unit; *any* GET
without requestBody — with or without parameters — → one parameter unit
(using the 200 response when present, or the leaked `response` variable);
otherwise (non-GET without requestBody) → no unit and no error. -/
theorem C3_amended :
    (∀ (fuel : Nat) (ms : String) (st : GenState) (path method : String) (multi : Bool)
        (op : Operation) (st' : GenState) (rb : Schema) (rs : List (String × Option Schema)),
        op.requestBody = some rb → op.responses = some rs →
        processOp fuel ms st path method multi op = some st' →
        ∃ content, st'.units = st.units ++ [(file_name_of path method multi, content)]) ∧
    (∀ (fuel : Nat) (ms : String) (st : GenState) (path method : String) (multi : Bool)
        (op : Operation) (st' : GenState) (rb : Schema),
        op.requestBody = some rb → op.responses = none →
        processOp fuel ms st path method multi op = some st' →
        ∃ content, st'.units = st.units ++ [(file_name_of path method multi, content)]) ∧
    (∀ (fuel : Nat) (ms : String) (st : GenState) (path : String) (multi : Bool)
        (op : Operation) (st' : GenState),
        op.requestBody = none →
        processOp fuel ms st path "get" multi op = some st' →
        ∃ content, st'.units = st.units ++ [(file_name_of path "get" multi, content)]) ∧
    (∀ (fuel : Nat) (ms : String) (st : GenState) (path method : String) (multi : Bool)
        (op : Operation) (st' : GenState),
        op.requestBody = none → method ≠ "get" →
        processOp fuel ms st path method multi op = some st' →
        st'.units = st.units) := by
  refine ⟨?_, ?_, ?_, ?_⟩
  · intro fuel ms st path method multi op st' rb rs hrb hrs h
    unfold processOp at h
    simp only [bind, Option.bind_eq_some] at h
    obtain ⟨r, hpre, hbr⟩ := h
    have hun := (preOp_state fuel st op r hpre).1
    unfold branchOp at hbr
    rw [hrb, hrs] at hbr
    dsimp only at hbr
    simp only [bind, Option.bind_eq_some, Option.pure_def, Option.some.injEq] at hbr
    obtain ⟨code, -, rc, -, sch, -, rcode, -, hbr⟩ := hbr
    refine ⟨code ++ rcode, ?_⟩
    rw [← hbr]
    simp [hun]
  · intro fuel ms st path method multi op st' rb hrb hrs h
    unfold processOp at h
    simp only [bind, Option.bind_eq_some] at h
    obtain ⟨r, hpre, hbr⟩ := h
    have hun := (preOp_state fuel st op r hpre).1
    unfold branchOp at hbr
    rw [hrb, hrs] at hbr
    dsimp only at hbr
    simp only [bind, Option.bind_eq_some, Option.pure_def, Option.some.injEq] at hbr
    obtain ⟨code, -, hbr⟩ := hbr
    refine ⟨code, ?_⟩
    rw [← hbr]
    simp [hun]
  · intro fuel ms st path multi op st' hrb h
    unfold processOp at h
    simp only [bind, Option.bind_eq_some] at h
    obtain ⟨r, hpre, hbr⟩ := h
    have hun := (preOp_state fuel st op r hpre).1
    unfold branchOp at hbr
    rw [hrb] at hbr
    dsimp only at hbr
    rw [if_pos rfl] at hbr
    cases hresp : op.responses with
    | some rs =>
      rw [hresp] at hbr
      dsimp only at hbr
      simp only [bind, Option.bind_eq_some, Option.pure_def, Option.some.injEq] at hbr
      obtain ⟨rc, -, rv, -, content, -, hbr⟩ := hbr
      refine ⟨content, ?_⟩
      rw [← hbr]
      simp [hun]
    | none =>
      rw [hresp] at hbr
      dsimp only at hbr
      simp only [bind, Option.bind_eq_some, Option.pure_def, Option.some.injEq] at hbr
      obtain ⟨rv, -, content, -, hbr⟩ := hbr
      refine ⟨content, ?_⟩
      rw [← hbr]
      simp [hun]
  · intro fuel ms st path method multi op st' hrb hm h
    unfold processOp at h
    simp only [bind, Option.bind_eq_some] at h
    obtain ⟨r, hpre, hbr⟩ := h
    have hun := (preOp_state fuel st op r hpre).1
    unfold branchOp at hbr
    rw [hrb] at hbr
    dsimp only at hbr
    rw [if_neg hm] at hbr
    simp only [Option.some.injEq] at hbr
    rw [← hbr]
    exact hun

/-- C3 witness: the amended statement applied to four concrete operations,
one per outcome. -/
theorem C3_amended_witness :
    (∃ content, ((processOp 20 "MS" c3St "/a" "post" false c3OpBoth).getD c3St).units =
        c3St.units ++ [(file_name_of "/a" "post" false, content)]) ∧
    (∃ content, ((processOp 20 "MS" c3St "/a" "post" false c3OpReqOnly).getD c3St).units =
        c3St.units ++ [(file_name_of "/a" "post" false, content)]) ∧
    (∃ content, ((processOp 20 "MS" c3St "/orders" "get" false c3OpGet).getD c3St).units =
        c3St.units ++ [(file_name_of "/orders" "get" false, content)]) ∧
    ((processOp 20 "MS" c3St "/orders" "delete" false c3OpDel).getD c3St).units = c3St.units := by
  refine ⟨?_, ?_, ?_, ?_⟩
  · exact C3_amended.1 20 "MS" c3St "/a" "post" false c3OpBoth
      ((processOp 20 "MS" c3St "/a" "post" false c3OpBoth).getD c3St)
      c3RefBody [("200", some c3RefR)] rfl rfl rfl
  · exact C3_amended.2.1 20 "MS" c3St "/a" "post" false c3OpReqOnly
      ((processOp 20 "MS" c3St "/a" "post" false c3OpReqOnly).getD c3St)
      c3RefBody rfl rfl rfl
  · exact C3_amended.2.2.1 20 "MS" c3St "/orders" false c3OpGet
      ((processOp 20 "MS" c3St "/orders" "get" false c3OpGet).getD c3St) rfl rfl
  · exact C3_amended.2.2.2 20 "MS" c3St "/orders" "delete" false c3OpDel
      ((processOp 20 "MS" c3St "/orders" "delete" false c3OpDel).getD c3St)
      rfl (by decide) rfl

/-- C4 inputs: a `$ref` request body whose definition `Body` declares one
primitive property `p`; `rq` is the definition's required-list, `prq` the
own `required` key of the property (the one the code actually reads at
line 95). -/
def c4Body (rq prq : List String) : Schema :=
  Schema.mk none (some "object")
    (some [("p", Schema.mk none (some "string") none none prq none)]) none rq none

def c4Defs (rq prq : List String) : Defs := [("Body", c4Body rq prq)]

def c4RefBody : Schema := Schema.mk (some "#/components/schemas/Body") none none none [] none

/-- Whatever the two required-lists are, the builder walk over the C4
document records the same single attribute map entry: both lists are erased
before anything reaches the output. -/
lemma c4_itr_eq (rq prq : List String) :
    itr_properties 5 (c4Defs rq prq) "Pets" c4RefBody [] [] "RequestNestedAttributes" =
      some ([("p", dataGet "p")], []) := rfl

/-- C4 counterexample: two documents that differ only in whether property
`p` is in the required-list of the body render to the *identical* module text, so
no parse of the rendered unit can recover the required/optional flag — the
`Parameter(...)` metadata that carries it is discarded by `parse_properties`
(lines 630-631 and 634-638 keep only the access expression). -/
theorem C4_counterexample :
    dcg_generate_class_code 5 (c4Defs ["p"] []) "MS" "/pets" "Pets" "pets" c4RefBody "" "" =
      dcg_generate_class_code 5 (c4Defs [] []) "MS" "/pets" "Pets" "pets" c4RefBody "" "" ∧
    (c4Body ["p"] []).required.contains "p" = true ∧
    (c4Body [] []).required.contains "p" = false := by
  refine ⟨?_, rfl, rfl⟩
  unfold dcg_generate_class_code
  rw [c4_itr_eq ["p"] [], c4_itr_eq [] []]

/-- Dropping a list from the front of itself followed by anything succeeds
with the remainder. -/
lemma dropPre_self_append (s t : List Char) : dropPre s (s ++ t) = some t := by
  induction s with
  | nil => rfl
  | cons a s ih => simp [dropPre, ih]

/-- One step of `splitGo` when the separator matches at the current
position. -/
lemma splitGo_succ_some (sep : List Char) (fuel : Nat) (x : Char) (rest cur rem : List Char)
    (h : dropPre sep (x :: rest) = some rem) :
    splitGo sep (Nat.succ fuel) (x :: rest) cur = cur.reverse :: splitGo sep fuel rem [] := by
  simp [splitGo, h]

/-- One step of `splitGo` when the separator does not match at the current
position. -/
lemma splitGo_succ_none (sep : List Char) (fuel : Nat) (x : Char) (rest cur : List Char)
    (h : dropPre sep (x :: rest) = none) :
    splitGo sep (Nat.succ fuel) (x :: rest) cur = splitGo sep fuel rest (x :: cur) := by
  simp [splitGo, h]

/-- Splitting an empty input closes the current chunk, at any fuel. -/
lemma splitGo_nil_input (sep : List Char) (fuel : Nat) (cur : List Char) :
    splitGo sep fuel [] cur = [cur.reverse] := by
  cases fuel with
  | zero => simp [splitGo]
  | succ f => rfl

/-- Scanning a chunk that is free of the separator head character consumes
it into the current piece, then splits at the separator occurrence that
follows it. -/
lemma splitGo_scan_head (h0 : Char) (srest : List Char) :
    ∀ (ps : List Char), (∀ c ∈ ps, c ≠ h0) →
    ∀ (fuel : Nat) (rest cur : List Char), ps.length + 1 ≤ fuel →
    splitGo (h0 :: srest) fuel (ps ++ (h0 :: srest) ++ rest) cur =
      (cur.reverse ++ ps) :: splitGo (h0 :: srest) (fuel - (ps.length + 1)) rest [] := by
  intro ps
  induction ps with
  | nil =>
    intro _ fuel rest cur hf
    cases fuel with
    | zero => omega
    | succ f =>
      have hd : dropPre (h0 :: srest) (h0 :: (srest ++ rest)) = some rest :=
        dropPre_self_append (h0 :: srest) rest
      simp only [List.nil_append, List.cons_append]
      rw [splitGo_succ_some _ _ _ _ _ _ hd]
      simp
  | cons a ps ih =>
    intro hps fuel rest cur hf
    cases fuel with
    | zero => omega
    | succ f =>
      have ha : h0 ≠ a := fun he => hps a (List.mem_cons_self a ps) he.symm
      have hd : dropPre (h0 :: srest) (a :: (ps ++ (h0 :: srest) ++ rest)) = none := by
        simp [dropPre, ha]
      simp only [List.cons_append]
      rw [splitGo_succ_none _ _ _ _ _ hd]
      rw [ih (fun c hc => hps c (List.mem_cons_of_mem a hc)) f rest (a :: cur)
        (by simp at hf; omega)]
      simp [List.reverse_cons, List.append_assoc, Nat.succ_sub_succ]

/-- Scanning a chunk that contains no equals character consumes it into the
current piece, then splits at the `" = "` separator that follows it. -/
lemma splitGo_scan_eq :
    ∀ (ps : List Char), (∀ c ∈ ps, c ≠ '=') →
    ∀ (fuel : Nat) (rest cur : List Char), ps.length + 1 ≤ fuel →
    splitGo [' ', '=', ' '] fuel (ps ++ [' ', '=', ' '] ++ rest) cur =
      (cur.reverse ++ ps) :: splitGo [' ', '=', ' '] (fuel - (ps.length + 1)) rest [] := by
  intro ps
  induction ps with
  | nil =>
    intro _ fuel rest cur hf
    cases fuel with
    | zero => omega
    | succ f =>
      have hd : dropPre [' ', '=', ' '] (' ' :: '=' :: ' ' :: rest) = some rest := by
        simp [dropPre]
      simp only [List.nil_append, List.cons_append]
      rw [splitGo_succ_some _ _ _ _ _ _ hd]
      simp
  | cons a ps ih =>
    intro hps fuel rest cur hf
    cases fuel with
    | zero => omega
    | succ f =>
      have hd : dropPre [' ', '=', ' '] (a :: (ps ++ [' ', '=', ' '] ++ rest)) = none := by
        by_cases hsp : (' ' : Char) = a
        · subst hsp
          cases ps with
          | nil =>
            have h2 : ('=' : Char) ≠ ' ' := by decide
            simp [dropPre, h2]
          | cons b ps2 =>
            have hb : ('=' : Char) ≠ b := fun he => hps b (by simp) he.symm
            simp [dropPre, hb]
        · simp [dropPre, hsp]
      simp only [List.cons_append]
      rw [splitGo_succ_none _ _ _ _ _ hd]
      rw [ih (fun c hc => hps c (List.mem_cons_of_mem a hc)) f rest (a :: cur)
        (by simp at hf; omega)]
      simp [List.reverse_cons, List.append_assoc, Nat.succ_sub_succ]

/-- Unfolds `pySplit` for a non-empty separator. -/
lemma pySplit_ne (s sep : String) (h : sep.data.isEmpty = false) :
    pySplit s sep = (splitGo sep.data s.data.length s.data []).map String.mk := by
  simp [pySplit, h]

/-- Unfolds the `attrs_text_of` fold into one flat character list, one
`self.<name> = <value>` chunk plus separator per map entry. -/
lemma attrs_text_of_data (m : List (String × String)) :
    (attrs_text_of m).data =
      (m.map (fun nv => ("self." ++ nv.1 ++ " = " ++ nv.2 ++ "\n        " : String).data)).flatten := by
  have h : ∀ (l : List (String × String)) (acc : String),
      (l.foldl (fun acc kv => acc ++ "self." ++ kv.1 ++ " = " ++ kv.2 ++ "\n        ") acc).data =
        acc.data ++
          (l.map (fun nv => ("self." ++ nv.1 ++ " = " ++ nv.2 ++ "\n        " : String).data)).flatten := by
    intro l
    induction l with
    | nil => intro acc; simp
    | cons nv l ih =>
      intro acc
      rw [List.foldl_cons, ih]
      simp [String.data_append, List.append_assoc]
  have h0 := h m ""
  simpa [attrs_text_of] using h0

/-- Splitting the rendered attribute text on the emitted separator recovers
exactly the `self.<name> = <value>` chunks, plus the final empty piece, as
long as names and values are newline-free. -/
lemma splitGo_attr_lines :
    ∀ (m : List (String × String)),
      (∀ nv ∈ m, ∀ c ∈ (("self." ++ nv.1 ++ " = " ++ nv.2 : String)).data, c ≠ '\n') →
    ∀ (fuel : Nat),
      (m.map (fun nv => ("self." ++ nv.1 ++ " = " ++ nv.2 ++ "\n        " : String).data)).flatten.length ≤ fuel →
      splitGo ('\n' :: ("        " : String).data) fuel
        ((m.map (fun nv => ("self." ++ nv.1 ++ " = " ++ nv.2 ++ "\n        " : String).data)).flatten) [] =
        m.map (fun nv => ("self." ++ nv.1 ++ " = " ++ nv.2 : String).data) ++ [[]] := by
  intro m
  induction m with
  | nil => intro _ fuel _; simp [splitGo_nil_input]
  | cons nv m ih =>
    intro hm fuel hf
    have hdata : ("self." ++ nv.1 ++ " = " ++ nv.2 ++ "\n        " : String).data =
        ("self." ++ nv.1 ++ " = " ++ nv.2 : String).data ++ ('\n' :: ("        " : String).data) := by
      simp only [String.data_append]
    rw [List.map_cons, List.flatten_cons, hdata] at hf ⊢
    have h8 : ("        " : String).data.length = 8 := rfl
    simp only [List.length_append, List.length_cons, h8] at hf
    rw [splitGo_scan_head '\n' ("        " : String).data
      (("self." ++ nv.1 ++ " = " ++ nv.2 : String)).data
      (hm nv (List.mem_cons_self nv m)) fuel
      ((m.map (fun nv => ("self." ++ nv.1 ++ " = " ++ nv.2 ++ "\n        " : String).data)).flatten)
      [] (by omega)]
    rw [ih (fun x hx => hm x (List.mem_cons_of_mem nv hx))
      (fuel - ((("self." ++ nv.1 ++ " = " ++ nv.2 : String)).data.length + 1)) (by omega)]
    simp

/-- A prefix test against the same list extended on the right succeeds. -/
lemma isPrefixOf_append_self (a b : List Char) : a.isPrefixOf (a ++ b) = true := by
  induction a with
  | nil => simp [List.isPrefixOf]
  | cons x xs ih => simp [List.isPrefixOf, ih]

/-- Every emitted attribute line starts with `self.`. -/
lemma pyStartsWith_line (n v : String) :
    pyStartsWith ("self." ++ n ++ " = " ++ v) "self." = true := by
  unfold pyStartsWith
  simp only [String.data_append, List.append_assoc]
  exact isPrefixOf_append_self _ _

/-- Stripping the five characters `self.` from an emitted attribute line. -/
lemma pyDrop_self_line (n v : String) :
    pyDrop ("self." ++ n ++ " = " ++ v) 5 = String.mk (n.data ++ ([' ', '=', ' '] ++ v.data)) := by
  unfold pyDrop
  congr 1
  simp only [String.data_append, List.append_assoc]
  rw [show (5 : Nat) = ("self." : String).data.length from rfl, List.drop_left]

/-- The piece before the first `" = "` of a stripped attribute line is the
attribute name, as long as the name contains no equals character. -/
lemma pySplit_line_head (n v : String) (hn : ∀ c ∈ n.data, c ≠ '=') :
    (pySplit (String.mk (n.data ++ ([' ', '=', ' '] ++ v.data))) " = ").headD "" = n := by
  rw [pySplit_ne (String.mk (n.data ++ ([' ', '=', ' '] ++ v.data))) " = " rfl]
  rw [show (String.mk (n.data ++ ([' ', '=', ' '] ++ v.data))).data =
    n.data ++ ([' ', '=', ' '] ++ v.data) from rfl]
  rw [show (" = " : String).data = [' ', '=', ' '] from rfl]
  rw [← List.append_assoc]
  rw [splitGo_scan_eq n.data hn ((n.data ++ [' ', '=', ' ']) ++ v.data).length v.data []
    (by simp [List.length_append])]
  simp

/-- The round-trip of the recogniser over the list of rendered line chunks:
each chunk yields back its name, the trailing empty piece is dropped. -/
lemma filterMap_extract (m : List (String × String))
    (hm : ∀ nv ∈ m, ∀ c ∈ nv.1.data, c ≠ '=') :
    (((m.map (fun nv => ("self." ++ nv.1 ++ " = " ++ nv.2 : String).data)).map String.mk ++
        [String.mk []]).filterMap (fun line =>
      if pyStartsWith line "self." then some ((pySplit (pyDrop line 5) " = ").headD "")
      else none)) = m.map Prod.fst := by
  induction m with
  | nil => rfl
  | cons nv m ih =>
    have hn : ∀ c ∈ nv.1.data, c ≠ '=' := hm nv (List.mem_cons_self nv m)
    rw [List.map_cons, List.map_cons, List.cons_append, List.filterMap_cons]
    rw [show String.mk (("self." ++ nv.1 ++ " = " ++ nv.2 : String)).data =
      ("self." ++ nv.1 ++ " = " ++ nv.2 : String) from rfl]
    rw [pyStartsWith_line nv.1 nv.2, pyDrop_self_line nv.1 nv.2,
      pySplit_line_head nv.1 nv.2 hn]
    rw [ih (fun x hx => hm x (List.mem_cons_of_mem nv hx))]
    simp

/-- For every attribute map whose names and values are newline-free and
whose names contain no equals character — true of everything the builder
constructs — splitting the rendered initializer body on the separator the
emitter itself inserts recovers exactly the names of the map, in order. -/
lemma extract_attr_names_of (m : List (String × String))
    (hm : ∀ nv ∈ m, (∀ c ∈ nv.1.data, c ≠ '\n') ∧ (∀ c ∈ nv.2.data, c ≠ '\n') ∧
      (∀ c ∈ nv.1.data, c ≠ '=')) :
    extract_attr_names (attrs_text_of m) = m.map Prod.fst := by
  have hlines : ∀ nv ∈ m, ∀ c ∈ (("self." ++ nv.1 ++ " = " ++ nv.2 : String)).data, c ≠ '\n' := by
    intro nv hnv c hc
    obtain ⟨h1, h2, _⟩ := hm nv hnv
    simp only [String.data_append, List.append_assoc, List.mem_append] at hc
    rcases hc with hc | hc | hc | hc
    · exact (by decide : ∀ c ∈ ("self." : String).data, c ≠ '\n') c hc
    · exact h1 c hc
    · exact (by decide : ∀ c ∈ (" = " : String).data, c ≠ '\n') c hc
    · exact h2 c hc
  unfold extract_attr_names
  rw [pySplit_ne (attrs_text_of m) "\n        " rfl]
  rw [show ("\n        " : String).data = '\n' :: ("        " : String).data from rfl]
  rw [attrs_text_of_data]
  rw [splitGo_attr_lines m hlines _ (le_refl _)]
  rw [List.map_append]
  simp only [List.map_cons, List.map_nil]
  exact filterMap_extract m (fun nv hnv => (hm nv hnv).2.2)

/-- An append chain in right-associated form embeds its own middle factor. -/
lemma embed_right (t s b r : String) : ∃ pre post, t ++ (s ++ (b ++ r)) = pre ++ (b ++ post) :=
  ⟨t ++ s, r, by simp only [String.append_assoc]⟩

set_option maxRecDepth 8000 in
/-- C4 (amended): the name half of the round-trip holds universally — for
every attribute map handed to the emitter whose names and values are
newline-free and whose names contain no equals character (true of every map
the builder constructs), the `self.<name>` lines of the rendered
`RequestBody` initializer body name exactly the entries of the map, in
order, and that body is embedded verbatim in the rendered unit whenever it
is non-empty — but the rendered text is independent of every required-list
in the document (that of the parent and that of the property alike), so the
required/optional flags are not recoverable from it. -/
theorem C4_amended :
    (∀ rq prq : List String,
      dcg_generate_class_code 5 (c4Defs rq prq) "MS" "/pets" "Pets" "pets" c4RefBody "" "" =
        dcg_generate_class_code 5 (c4Defs [] []) "MS" "/pets" "Pets" "pets" c4RefBody "" "") ∧
    (∀ m : List (String × String),
      (∀ nv ∈ m, (∀ c ∈ nv.1.data, c ≠ '\n') ∧ (∀ c ∈ nv.2.data, c ≠ '\n') ∧
        (∀ c ∈ nv.1.data, c ≠ '=')) →
      extract_attr_names (attrs_text_of m) = m.map Prod.fst) ∧
    (∀ file_name attributes_text nested_classes_text end_point nested_class_param_text
        parameter_text ms_suffix : String,
      attributes_text ≠ "" →
      ∃ pre post,
        generate_class_code file_name attributes_text nested_classes_text end_point
          nested_class_param_text parameter_text ms_suffix = pre ++ attributes_text ++ post) := by
  refine ⟨?_, ?_, ?_⟩
  · intro rq prq
    unfold dcg_generate_class_code
    rw [c4_itr_eq rq prq, c4_itr_eq [] []]
  · intro m hm
    exact extract_attr_names_of m hm
  · intro file_name attributes_text nested_classes_text end_point nested_class_param_text
      parameter_text ms_suffix h
    simp only [generate_class_code]
    rw [if_neg h]
    simp only [String.append_assoc]
    exact embed_right _ _ _ _

/-- C4 witness: the amended statement instantiated — flag-independence at
concrete required-lists, the name round-trip at a concrete attribute map,
and the verbatim embedding at a concrete initializer body. -/
theorem C4_amended_witness :
    (dcg_generate_class_code 5 (c4Defs ["p"] ["p"]) "MS" "/pets" "Pets" "pets" c4RefBody "" "" =
      dcg_generate_class_code 5 (c4Defs [] []) "MS" "/pets" "Pets" "pets" c4RefBody "" "") ∧
    extract_attr_names (attrs_text_of
      [("a", dataGet "a"),
       ("items", listCompExpr "RequestNestedAttributes" "items" "items_" "items"),
       ("items_data", dataGet "items")]) = ["a", "items", "items_data"] ∧
    (∃ pre post,
      generate_class_code "pets" "self.a = x" "" "/pets" "" "" "MS" =
        pre ++ "self.a = x" ++ post) := by
  refine ⟨C4_amended.1 ["p"] ["p"], ?_,
    C4_amended.2.2 "pets" "self.a = x" "" "/pets" "" "" "MS" (by decide)⟩
  exact C4_amended.2.1
    [("a", dataGet "a"),
     ("items", listCompExpr "RequestNestedAttributes" "items" "items_" "items"),
     ("items_data", dataGet "items")] (by decide)

/-- C8 inputs: the array-of-reference example of the spec — property `items`
whose element definition `LineItem` has properties `sku` and `qty`. -/
def c8Defs : Defs :=
  [("LineItem", objS [("sku", primS "string"), ("qty", primS "integer")])]

def c8ItemsProp : Schema :=
  Schema.mk none (some "array") none
    (some (Schema.mk (some "#/definitions/LineItem") none none none [] none)) [] none

/-- C8: for the array-of-reference property `items` the builder produces
exactly one nested type definition stored under the key `items` (the
property name, not `LineItem`) with attributes `sku` and `qty`, one
list-transform attribute `items`, and one shadow attribute `items_data`
holding the raw value; and the emitted list-transform expression evaluates
to the empty list whenever the raw value is absent or not a list, and to
one constructed instance per element otherwise. -/
theorem C8_array_of_reference :
    (parse_properties 5 c8Defs [("items", c8ItemsProp)] [] [] "C" "" "RequestNestedAttributes" =
      some ([("items", listCompExpr "RequestNestedAttributes" "items" "items_" "items"),
             ("items_data", dataGet "items")],
            [("items", get_nested_class_code "items"
              (generate_nested_init [("sku", dataGet "sku"), ("qty", dataGet "qty")]))])) ∧
    (∀ (data : PyVal) (ctor : PyVal → PyVal), (data.get "items").isList = false →
      listTransformSem ctor data "items" = []) ∧
    (∀ (xs : List PyVal) (data : PyVal) (ctor : PyVal → PyVal),
      data.get "items" = PyVal.list xs →
      listTransformSem ctor data "items" = xs.map ctor) := by
  refine ⟨rfl, ?_, ?_⟩
  · intro data ctor h
    unfold listTransformSem
    cases hg : data.get "items" with
    | list xs => rw [hg] at h; exact absurd h (by simp [PyVal.isList])
    | none_ => rfl
    | str s => rfl
    | int n => rfl
    | bool b => rfl
    | dict fields => rfl
  · intro xs data ctor h
    unfold listTransformSem
    rw [h]

/-- C8 witness: the semantics statements applied at concrete inputs. -/
theorem C8_array_of_reference_witness :
    listTransformSem (fun _ => PyVal.none_) (PyVal.dict []) "items" = [] ∧
    listTransformSem (fun v => v)
      (PyVal.dict [("items", PyVal.list [PyVal.int 3, PyVal.int 4])]) "items" =
      [PyVal.int 3, PyVal.int 4] :=
  ⟨C8_array_of_reference.2.1 (PyVal.dict []) (fun _ => PyVal.none_) rfl,
   C8_array_of_reference.2.2 [PyVal.int 3, PyVal.int 4]
     (PyVal.dict [("items", PyVal.list [PyVal.int 3, PyVal.int 4])]) (fun v => v) rfl⟩

lemma pySet_nil (k : String) (v : α) : pySet [] k v = [(k, v)] := rfl

lemma pySet_singleton_same (k : String) (v w : α) : pySet [(k, v)] k w = [(k, w)] := by
  simp [pySet]

lemma pySet_singleton_other (k k' : String) (hne : k' ≠ k) (v w : α) :
    pySet [(k, v)] k' w = [(k, v), (k', w)] := by
  simp [pySet, List.elem_eq_mem, hne]

lemma append_data_ne (n : String) : n ++ "_data" ≠ n := by
  intro h
  have hl := congrArg String.length h
  rw [String.length_append] at hl
  have h5 : ("_data" : String).length = 5 := rfl
  omega

/-- Both branches of the description test in `generate_parameter`
(lines 99-105) return the same access expression. -/
lemma generate_parameter_fst (n : String) (s : Schema) :
    (generate_parameter n s).1 = dataGet n := by
  simp only [generate_parameter]
  split <;> rfl

/-- C5 inputs: a property `p` carrying both a `$ref`
with the reference `#/components/schemas/A` (whose definition has property `a`) and an inline
`type: object` with `properties: {b: integer}`. -/
def c5Defs : Defs := [("A", Schema.mk none none (some [("a", primS "string")]) none [] none)]

def c5Both : Schema :=
  Schema.mk (some "#/components/schemas/A") (some "object")
    (some [("b", primS "integer")]) none [] none

/-- C5 counterexample: on a property carrying both a reference and an
inline `type`/`properties` declaration the reference does *not* win: the
`"$ref"` branch (line 575) runs first, but the separate `if` chain at
line 586 also matches and overwrites its results — the final attribute is
the inline-derived list-transform expression (not the reference-branch
constructor call `p()`), a shadow `p_data` attribute appears, and the
nested class stored under `p` is built from the inline property `b`, not
the referenced definition's property `a`. -/
theorem C5_counterexample :
    parse_properties 5 c5Defs [("p", c5Both)] [] [] "C" "" "RequestNestedAttributes" =
      some ([("p", listCompExpr "RequestNestedAttributes" "p" "p_" "p"),
             ("p_data", dataGet "p")],
            [("p", get_nested_class_code "p" (generate_nested_init [("b", dataGet "b")]))]) ∧
    listCompExpr "RequestNestedAttributes" "p" "p_" "p" ≠ "p()" ∧
    listCompExpr "RequestNestedAttributes" "p" "p_" "p" ≠
      "RequestNestedAttributes.p(" ++ dataGet "p" ++ ")" ∧
    generate_nested_init [("b", dataGet "b")] ≠ generate_nested_init [("a", dataGet "a")] :=
  ⟨rfl, by decide, by decide, by decide⟩

/-- C5 (amended): for every property carrying both a resolvable reference
and an inline `type: object` with `properties`, a successful run of the
builder on that property records the results of the inline-object branch for the
attribute map: the attribute is the list-transform expression over the
property name plus the `_data` shadow attribute — the constructor-call
attribute of the reference branch is overwritten. -/
theorem C5_amended (fuel : Nat) (defs : Defs) (n : String) (p : Schema)
    (ref : String) (ips : List (String × Schema)) (cn sfx pvar : String)
    (out : List (String × String) × List (String × String))
    (href : p.ref = some ref) (hobj : p.type'.getD "" = "object")
    (hips : p.properties = some ips)
    (h : parse_properties (fuel + 1) defs [(n, p)] [] [] cn sfx pvar = some out) :
    out.1 = [(n, listCompExpr pvar n (n ++ "_") n), (n ++ "_data", dataGet n)] := by
  unfold parse_properties at h
  dsimp only at h
  rw [List.foldlM_cons] at h
  dsimp only at h
  rw [href] at h
  dsimp only at h
  cases hd : resolve_reference defs ref with
  | none => rw [hd] at h; simp [bind] at h
  | some d =>
    rw [hd] at h
    simp only [bind, Option.some_bind] at h
    cases hdp : d.properties with
    | none => rw [hdp] at h; simp [bind] at h
    | some dps =>
      rw [hdp] at h
      simp only [bind, Option.some_bind] at h
      cases hr1 : parse_properties fuel defs dps [] [] cn n pvar with
      | none => rw [hr1] at h; simp [bind] at h
      | some r1 =>
        rw [hr1] at h
        simp only [bind, Option.some_bind] at h
        rw [hips] at h
        have hbeq : (p.type'.getD "" == "object") = true := by rw [hobj]; rfl
        rw [hbeq] at h
        dsimp only at h
        cases hr2 : parse_properties fuel defs ips []
            (pySet r1.2 n (get_nested_class_code n (generate_nested_init r1.1))) cn n pvar with
        | none => rw [hr2] at h; simp [bind] at h
        | some r2 =>
          rw [hr2] at h
          simp only [bind, Option.some_bind, List.foldlM_nil, Option.pure_def,
            Option.some.injEq] at h
          rw [← h]
          dsimp only
          rw [pySet_nil, pySet_singleton_same, pySet_singleton_other _ _ (append_data_ne n)]

/-- C5 witness: the amended statement applied to the concrete C5 inputs. -/
theorem C5_amended_witness :
    ((parse_properties 5 c5Defs [("p", c5Both)] [] [] "C" "" "RequestNestedAttributes").getD
        ([], [])).1 =
      [("p", listCompExpr "RequestNestedAttributes" "p" "p_" "p"), ("p_data", dataGet "p")] :=
  C5_amended 4 c5Defs "p" c5Both "#/components/schemas/A" [("b", primS "integer")]
    "C" "" "RequestNestedAttributes"
    ((parse_properties 5 c5Defs [("p", c5Both)] [] [] "C" "" "RequestNestedAttributes").getD ([], []))
    rfl rfl rfl rfl

/-- C6 inputs: a parent object schema requiring its primitive property
`p`, whose own subschema carries no `required` key. -/
def c6Parent : Schema :=
  Schema.mk none (some "object") (some [("p", primS "string")]) none ["p"] none

/-- C6 counterexample: the property `p` is in the required-list of its parent schema, yet the flag `generate_parameter` computes for it is `False`
(line 95 reads `required` from the *own* subschema of the property), and the
output of the builder for `p` is only the access expression — the
`Parameter(...)` metadata carrying the flag is discarded, so nothing marks
`p` required. -/
theorem C6_counterexample :
    c6Parent.required.contains "p" = true ∧
    (generate_parameter "p" (primS "string")).2 =
      "Parameter(name=\"p\", value=None, required=False, type_=\"string\")" ∧
    parse_properties 3 [] [("p", primS "string")] [] [] "C" "" "RequestNestedAttributes" =
      some ([("p", dataGet "p")], []) :=
  ⟨rfl, rfl, rfl⟩

/-- C6 (amended): the required flag interpolated into the `Parameter(...)`
metadata is `true` exactly when the property name occurs in the required-list of the *own* subschema of the property (the required-list of the parent is never
consulted); and for a primitive property the builder records only the
direct access expression `data.get("<name>")` — the metadata, and with it
the flag, is discarded and never reaches the output. -/
theorem C6_amended :
    (∀ (n : String) (s : Schema),
      (generate_parameter n s).2 =
        "Parameter(name=\"" ++ n ++ "\", value=None, required=" ++
          pyBool (s.required.contains n) ++ ", type_=\"" ++ s.type'.getD "" ++ "\")") ∧
    (∀ (n : String) (s : Schema), (generate_parameter n s).1 = dataGet n) ∧
    (∀ (fuel : Nat) (defs : Defs) (n : String) (p : Schema) (cn sfx pvar : String),
      p.ref = none →
      (p.properties = none ∨ p.type'.getD "" ≠ "object") →
      (p.items = none ∨ p.type'.getD "" ≠ "array") →
      parse_properties (fuel + 1) defs [(n, p)] [] [] cn sfx pvar =
        some ([(n, dataGet n)], [])) := by
  refine ⟨?_, ?_, ?_⟩
  · intro n s
    simp only [generate_parameter]
    split <;> rfl
  · intro n s
    exact generate_parameter_fst n s
  · intro fuel defs n p cn sfx pvar href hop harr
    have hbobj : (p.type'.getD "" == "object") = true → p.properties = none := by
      intro hc
      rcases hop with hpp | hto
      · exact hpp
      · exact absurd (by simpa using hc) hto
    have hbarr : (p.type'.getD "" == "array") = true → p.items = none := by
      intro hc
      rcases harr with hpi | hta
      · exact hpi
      · exact absurd (by simpa using hc) hta
    unfold parse_properties
    dsimp only
    rw [List.foldlM_cons]
    dsimp only
    rw [href]
    dsimp only
    simp only [bind, Option.some_bind]
    cases hpp : p.properties with
    | some ips =>
      cases hbt : (p.type'.getD "" == "object") with
      | true => exact absurd (hbobj hbt) (by rw [hpp]; simp)
      | false =>
        dsimp only
        cases hpi : p.items with
        | some its =>
          cases hat : (p.type'.getD "" == "array") with
          | true => exact absurd (hbarr hat) (by rw [hpi]; simp)
          | false =>
            dsimp only
            simp only [generate_parameter_fst]
            rfl
        | none =>
          dsimp only
          simp only [generate_parameter_fst]
          rfl
    | none =>
      dsimp only
      cases hpi : p.items with
      | some its =>
        cases hat : (p.type'.getD "" == "array") with
        | true => exact absurd (hbarr hat) (by rw [hpi]; simp)
        | false =>
          dsimp only
          simp only [generate_parameter_fst]
          rfl
      | none =>
        dsimp only
        simp only [generate_parameter_fst]
        rfl

/-- C6 witness: the amended statement applied at the concrete C6 inputs
(`p` required in the parent, absent from its own subschema). -/
theorem C6_amended_witness :
    (generate_parameter "p" (primS "string")).2 =
      "Parameter(name=\"p\", value=None, required=" ++
        pyBool ((primS "string").required.contains "p") ++ ", type_=\"string\")" ∧
    (generate_parameter "p" (primS "string")).1 = dataGet "p" ∧
    parse_properties 3 [] [("p", primS "string")] [] [] "C" "" "RequestNestedAttributes" =
      some ([("p", dataGet "p")], []) :=
  ⟨C6_amended.1 "p" (primS "string"),
   C6_amended.2.1 "p" (primS "string"),
   C6_amended.2.2 2 [] "p" (primS "string") "C" "" "RequestNestedAttributes"
     rfl (Or.inl rfl) (Or.inl rfl)⟩

/-- The query-line flattening of `get_parameter_module` (lines 217-219),
as a function of the parameter list alone. -/
def query_attr_lines (parameters : List Param) : List String :=
  (parameters.filter (fun p => p.inLoc == "query")).map
    (fun p => "self." ++ p.name ++ " = " ++ dataGet p.name)

lemma get_parameter_module_attrs_inner (parameters : List Param) :
    ∀ acc : List String,
      parameters.foldl (fun a p =>
        if p.inLoc = "query" then a ++ ["self." ++ p.name ++ " = " ++ dataGet p.name] else a)
        acc = acc ++ query_attr_lines parameters := by
  induction parameters with
  | nil => intro acc; simp [query_attr_lines]
  | cons p rest ih =>
    intro acc
    simp only [List.foldl_cons]
    by_cases hq : p.inLoc = "query"
    · rw [if_pos hq, ih]
      simp [query_attr_lines, List.filter_cons, hq]
    · rw [if_neg hq, ih]
      simp [query_attr_lines, List.filter_cons, hq]

lemma get_parameter_module_attrs_eq (classes_list : List String) (parameters : List Param) :
    get_parameter_module_attrs classes_list parameters =
      classes_list.flatMap (fun c =>
        ("self." ++ c ++ " = " ++ c ++ "(" ++ dataGet c ++ ")") ::
          query_attr_lines parameters) := by
  unfold get_parameter_module_attrs
  suffices h : ∀ acc : List String,
      classes_list.foldl (fun attributes attr_name =>
        parameters.foldl (fun a p =>
          if p.inLoc = "query" then a ++ ["self." ++ p.name ++ " = " ++ dataGet p.name] else a)
          (attributes ++ ["self." ++ attr_name ++ " = " ++ attr_name ++ "(" ++ dataGet attr_name ++ ")"]))
        acc =
      acc ++ classes_list.flatMap (fun c =>
        ("self." ++ c ++ " = " ++ c ++ "(" ++ dataGet c ++ ")") :: query_attr_lines parameters) by
    simpa using h []
  induction classes_list with
  | nil => intro acc; simp
  | cons c rest ih =>
    intro acc
    simp only [List.foldl_cons]
    rw [get_parameter_module_attrs_inner, ih]
    simp [List.flatMap_cons]

lemma nested_param_class_list_mem (parameters : List Param) (c : String) :
    c ∈ nested_param_class_list parameters ↔
      c ≠ "query" ∧ ∃ p ∈ parameters, p.inLoc = c := by
  suffices h : ∀ cl : List String, c ∈ parameters.foldl (fun cl p =>
      if !cl.contains p.inLoc && p.inLoc != "query" then cl ++ [p.inLoc] else cl) cl ↔
      c ∈ cl ∨ (c ≠ "query" ∧ ∃ p ∈ parameters, p.inLoc = c) by
    have h0 := h []
    simp only [List.not_mem_nil, false_or] at h0
    exact h0
  induction parameters with
  | nil => intro cl; simp
  | cons p rest ih =>
    intro cl
    simp only [List.foldl_cons]
    by_cases hq : p.inLoc = "query"
    · have hcond : (if (!cl.contains p.inLoc && p.inLoc != "query") = true
          then cl ++ [p.inLoc] else cl) = cl := by
        simp [hq]
      rw [hcond, ih]
      constructor
      · rintro (hcl | ⟨hne, q, hq2, he⟩)
        · exact Or.inl hcl
        · exact Or.inr ⟨hne, q, List.mem_cons_of_mem p hq2, he⟩
      · rintro (hcl | ⟨hne, q, hq2, he⟩)
        · exact Or.inl hcl
        · rcases List.mem_cons.mp hq2 with rfl | hq3
          · exact absurd (he ▸ hq) (by rw [he] at hq; exact fun _ => hne hq)
          · exact Or.inr ⟨hne, q, hq3, he⟩
    · by_cases hc : p.inLoc ∈ cl
      · have hcond : (if (!cl.contains p.inLoc && p.inLoc != "query") = true
            then cl ++ [p.inLoc] else cl) = cl := by
          simp [List.elem_eq_mem, hc]
        rw [hcond, ih]
        constructor
        · rintro (hcl | ⟨hne, q, hq2, he⟩)
          · exact Or.inl hcl
          · exact Or.inr ⟨hne, q, List.mem_cons_of_mem p hq2, he⟩
        · rintro (hcl | ⟨hne, q, hq2, he⟩)
          · exact Or.inl hcl
          · rcases List.mem_cons.mp hq2 with rfl | hq3
            · exact Or.inl (he ▸ hc)
            · exact Or.inr ⟨hne, q, hq3, he⟩
      · have hcond : (if (!cl.contains p.inLoc && p.inLoc != "query") = true
            then cl ++ [p.inLoc] else cl) = cl ++ [p.inLoc] := by
          simp [List.elem_eq_mem, hc, hq]
        rw [hcond, ih]
        constructor
        · rintro (hcl | ⟨hne, q, hq2, he⟩)
          · rcases List.mem_append.mp hcl with hcl' | hcl'
            · exact Or.inl hcl'
            · refine Or.inr ⟨?_, p, List.mem_cons_self p rest, (List.mem_singleton.mp hcl').symm⟩
              rw [List.mem_singleton.mp hcl']
              exact hq
          · exact Or.inr ⟨hne, q, List.mem_cons_of_mem p hq2, he⟩
        · rintro (hcl | ⟨hne, q, hq2, he⟩)
          · exact Or.inl (List.mem_append.mpr (Or.inl hcl))
          · rcases List.mem_cons.mp hq2 with rfl | hq3
            · exact Or.inl (List.mem_append.mpr (Or.inr (List.mem_singleton.mpr he.symm)))
            · exact Or.inr ⟨hne, q, hq3, he⟩

/-- Among the standard parameter locations the substring test of line 513
agrees with equality. -/
lemma pyInStr_std (c loc : String) (hc : c ∈ ["path", "header", "cookie"])
    (hl : loc ∈ ["path", "query", "header", "cookie"]) :
    pyInStr c loc = (loc == c) := by
  fin_cases hc <;> fin_cases hl <;> decide

/-- C7 inputs. -/
def c7Query : Param := ⟨"q", "query", false, some (some "string")⟩

def c7Path : Param := ⟨"id", "path", true, some (some "string")⟩

def c7Hdr : Param := ⟨"h", "header", false, some (some "string")⟩

/-- C7 counterexample: whether a query parameter becomes a flattened
attribute depends on the number of distinct non-query locations, because
the flattening loop (lines 217-219) is nested inside the loop over the
location classes: with zero non-query locations the query parameter `q`
produces *no* attribute at all, and with two distinct non-query locations
its attribute is emitted *twice* — never "exactly one" as claimed. -/
theorem C7_counterexample :
    c7Query.inLoc = "query" ∧
    nested_param_class_list [c7Query] = [] ∧
    get_parameter_module_attrs (nested_param_class_list [c7Query]) [c7Query] = [] ∧
    (get_parameter_module_attrs (nested_param_class_list [c7Path, c7Hdr, c7Query])
        [c7Path, c7Hdr, c7Query]).countP
      (fun l => l == "self.q = " ++ dataGet "q") = 2 :=
  ⟨rfl, rfl, rfl, by decide⟩

/-- C7 (amended): one location class is created per distinct non-query
location (in first-occurrence order), and — for the standard locations,
where the substring test of line 513 coincides with equality — each
non-query parameter is assigned to exactly the class named after its
location; but each query parameter becomes one flattened attribute *per
location class*, so it appears `k` times when there are `k` distinct
non-query locations (zero times when all parameters are query
parameters). -/
theorem C7_amended :
    (∀ (parameters : List Param) (c : String),
      c ∈ nested_param_class_list parameters ↔
        c ≠ "query" ∧ ∃ p ∈ parameters, p.inLoc = c) ∧
    (∀ (classes_list : List String) (parameters : List Param),
      get_parameter_module_attrs classes_list parameters =
        classes_list.flatMap (fun c =>
          ("self." ++ c ++ " = " ++ c ++ "(" ++ dataGet c ++ ")") ::
            query_attr_lines parameters)) ∧
    (∀ (c : String) (parameters : List Param),
      c ∈ ["path", "header", "cookie"] →
      (∀ p ∈ parameters, p.inLoc ∈ ["path", "query", "header", "cookie"]) →
      params_for_class c parameters = parameters.filter (fun p => p.inLoc == c)) := by
  refine ⟨nested_param_class_list_mem, get_parameter_module_attrs_eq, ?_⟩
  intro c parameters hc hps
  unfold params_for_class
  apply List.filter_congr
  intro p hp
  rw [pyInStr_std c p.inLoc hc (hps p hp)]

/-- C7 witness: the amended statement applied to the concrete parameter
list `[id:path, h:header, q:query]`. -/
theorem C7_amended_witness :
    ("path" ∈ nested_param_class_list [c7Path, c7Hdr, c7Query] ↔
      "path" ≠ "query" ∧ ∃ p ∈ [c7Path, c7Hdr, c7Query], p.inLoc = "path") ∧
    get_parameter_module_attrs ["path", "header"] [c7Path, c7Hdr, c7Query] =
      ["path", "header"].flatMap (fun c =>
        ("self." ++ c ++ " = " ++ c ++ "(" ++ dataGet c ++ ")") ::
          query_attr_lines [c7Path, c7Hdr, c7Query]) ∧
    params_for_class "path" [c7Path, c7Hdr, c7Query] =
      [c7Path, c7Hdr, c7Query].filter (fun p => p.inLoc == "path") :=
  ⟨C7_amended.1 [c7Path, c7Hdr, c7Query] "path",
   C7_amended.2.1 ["path", "header"] [c7Path, c7Hdr, c7Query],
   C7_amended.2.2 "path" [c7Path, c7Hdr, c7Query] (by decide) (by decide)⟩

/-- C10: reference resolution depends only on the final slash-separated
segment of the reference string, and the lookup always happens in the
`components.schemas` table of the document whatever prefix the reference
carries; in particular `#/definitions/X` and `#/components/schemas/X`
resolve identically. -/
theorem C10_resolve_last_segment :
    (∀ (defs : Defs) (r1 r2 : String), lastSeg r1 = lastSeg r2 →
      resolve_reference defs r1 = resolve_reference defs r2) ∧
    (∀ defs : Defs,
      resolve_reference defs "#/definitions/X" =
        resolve_reference defs "#/components/schemas/X") := by
  constructor
  · intro defs r1 r2 h
    unfold resolve_reference
    rw [h]
  · intro defs
    rfl

/-- C10 witness: the extensionality statement applied at two concrete
references with equal last segments, on a concrete table. -/
theorem C10_resolve_last_segment_witness :
    resolve_reference [("Pet", primS "string")] "#/definitions/Pet" =
      resolve_reference [("Pet", primS "string")] "#/components/schemas/Pet" :=
  C10_resolve_last_segment.1 [("Pet", primS "string")]
    "#/definitions/Pet" "#/components/schemas/Pet" rfl

end SwaggerMain
